import Mathlib

/-!
# ctkDICOMQuery: a shallow embedding of `Libs/DICOM/Core/ctkDICOMQuery.cpp`

The method `ctkDICOMQuery::query` drives a two-level C-FIND cascade over a
`DcmSCU` association and forwards the returned datasets to a database.  The
embedding below is a pure function from the private state of the object and a
description of the peer to the new private state and the ordered trace of every
externally visible action (signals, logger calls, SCU calls, database inserts).

Modelling conventions:

* `QString` is `String`; a `char*` buffer, an `OFString` and the value of a
  DICOM element are lists of bytes.  A function taking `const char*` reads its
  argument up to the first NUL byte (`cStr`).
* `QString::toAscii` / `toStdString` use the default C-string codec of Qt 4,
  Latin-1: a character above 255 becomes `?`.  `QString(const char*)` decodes
  Latin-1.
* `DcmDataset` is the tag-ordered list of its elements, each a tag and a byte
  string; value representations and multi-valued parsing are not modelled.
* A `float` or `double` value is the rational it denotes.  Every operation of
  lines 360, 366 and 389 rounds its exact result to the precision of its type
  (24 bits for `float`, 53 for `double`), to nearest with ties to even; the
  conversion to the `int` argument of the `progress(int)` signal truncates
  towards zero.  The exponent range of the formats and the range of `int` are
  not modelled: no value of a run whose UID count fits an `int` leaves the
  normal range of either format.
-/

namespace CTK

/-! ## Strings -/

/-- One `char`. -/
abbrev Byte := Fin 256

/-- Contents of an `OFString`, a `QByteArray` or a `char*` buffer. -/
abbrev OFString := List Byte

/-- What a callee sees of a `const char*` argument: the bytes before the first NUL. -/
def cStr (buf : List Byte) : OFString :=
  buf.takeWhile (fun b => b != 0)

/-- Latin-1 encoding of one character, `?` when it has no Latin-1 code. -/
def toLatin1 (c : Char) : Byte :=
  if h : c.toNat < 256 then ⟨c.toNat, h⟩ else 63

/-- Method `QString::toAscii()` (also the contents of `QString::toStdString()`). -/
def toAscii (s : String) : List Byte :=
  s.data.map toLatin1

/-- Constructor `QString(const char*)`: the C string decoded as Latin-1. -/
def fromAscii (buf : List Byte) : String :=
  String.mk ((cStr buf).map (fun b => Char.ofNat b.val))

/-- Method `QString::chop(n)`: remove the last `n` characters. -/
def chop (s : String) (n : Nat) : String :=
  String.mk (s.data.take (s.data.length - n))

/-! ## Floating point -/

/-- The integer nearest to a rational, the even one of the two when it is half way. -/
def roundHalfEven (m : ℚ) : ℤ :=
  if m - ⌊m⌋ < 1 / 2 then ⌊m⌋
  else if 1 / 2 < m - ⌊m⌋ then ⌊m⌋ + 1
  else if ⌊m⌋ % 2 = 0 then ⌊m⌋ else ⌊m⌋ + 1

/-- The spacing of the binary floating point numbers of precision `p` around `x`. -/
def ulp (p : ℕ) (x : ℚ) : ℚ := 2 ^ (Int.log 2 |x| - p + 1)

/-- The binary floating point number of precision `p` nearest to `x`, ties to even. -/
def roundTo (p : ℕ) (x : ℚ) : ℚ := roundHalfEven (x / ulp p x) * ulp p x

/-- Rounding to `float` (IEEE 754 binary32). -/
def toFloat (x : ℚ) : ℚ := roundTo 24 x

/-- Rounding to `double` (IEEE 754 binary64). -/
def toDouble (x : ℚ) : ℚ := roundTo 53 x

/-! ## QVariant and QMap -/

/-- The `QVariant` payloads a filter can carry. -/
inductive QVariant where
  | invalid
  | string (s : String)
  | stringList (l : List String)
deriving DecidableEq, Repr

/-- Method `QVariant::toString()`. -/
def QVariant.toString : QVariant → String
  | .invalid => ""
  | .string s => s
  | .stringList [s] => s
  | .stringList _ => ""

/-- Method `QVariant::toStringList()`. -/
def QVariant.toStringList : QVariant → List String
  | .invalid => []
  | .string s => [s]
  | .stringList l => l

/-- A `QMap<QString,QVariant>` given by its bindings; the first binding of a key counts. -/
abbrev QMap := List (String × QVariant)

/-- Order of `QString::operator<`: the character codes compared lexicographically. -/
def qstringLt : List Char → List Char → Bool
  | _, [] => false
  | [], _ :: _ => true
  | a :: as, b :: bs => a.toNat < b.toNat || (a.toNat == b.toNat && qstringLt as bs)

/-- Method `QMap::keys()`: the keys, each once, in ascending order. -/
def QMap.keys (m : QMap) : List String :=
  ((m.map Prod.fst).dedup).insertionSort (fun a b => qstringLt b.data a.data = false)

/-- Operator `QMap::operator[]`: the value of a key, a default `QVariant` when absent. -/
def QMap.value (m : QMap) (key : String) : QVariant :=
  (m.lookup key).getD QVariant.invalid

/-! ## DCMTK datasets -/

/-- A DICOM attribute tag `(group, element)`. -/
structure DcmTagKey where
  group : Nat
  element : Nat
deriving DecidableEq, Repr

/-- Tag order of `DcmTagKey::operator<`. -/
def DcmTagKey.lt (a b : DcmTagKey) : Bool :=
  a.group < b.group || (a.group == b.group && a.element < b.element)

def DCM_StudyDate : DcmTagKey := ⟨0x0008, 0x0020⟩
def DCM_SeriesDate : DcmTagKey := ⟨0x0008, 0x0021⟩
def DCM_StudyTime : DcmTagKey := ⟨0x0008, 0x0030⟩
def DCM_SeriesTime : DcmTagKey := ⟨0x0008, 0x0031⟩
def DCM_AccessionNumber : DcmTagKey := ⟨0x0008, 0x0050⟩
def DCM_QueryRetrieveLevel : DcmTagKey := ⟨0x0008, 0x0052⟩
def DCM_Modality : DcmTagKey := ⟨0x0008, 0x0060⟩
def DCM_ModalitiesInStudy : DcmTagKey := ⟨0x0008, 0x0061⟩
def DCM_StudyDescription : DcmTagKey := ⟨0x0008, 0x1030⟩
def DCM_SeriesDescription : DcmTagKey := ⟨0x0008, 0x103E⟩
def DCM_PatientsName : DcmTagKey := ⟨0x0010, 0x0010⟩
def DCM_PatientID : DcmTagKey := ⟨0x0010, 0x0020⟩
def DCM_PatientsBirthDate : DcmTagKey := ⟨0x0010, 0x0030⟩
def DCM_StudyInstanceUID : DcmTagKey := ⟨0x0020, 0x000D⟩
def DCM_SeriesInstanceUID : DcmTagKey := ⟨0x0020, 0x000E⟩
def DCM_StudyID : DcmTagKey := ⟨0x0020, 0x0010⟩
def DCM_SeriesNumber : DcmTagKey := ⟨0x0020, 0x0011⟩
def DCM_NumberOfStudyRelatedSeries : DcmTagKey := ⟨0x0020, 0x1206⟩
def DCM_NumberOfStudyRelatedInstances : DcmTagKey := ⟨0x0020, 0x1208⟩
def DCM_NumberOfSeriesRelatedInstances : DcmTagKey := ⟨0x0020, 0x1209⟩

/-- A `DcmDataset`: its elements in list order. -/
abbrev DcmDataset := List (DcmTagKey × OFString)

namespace DcmDataset

/-- Method `DcmItem::card()`. -/
def card (ds : DcmDataset) : Nat := ds.length

/-- Method `DcmItem::remove(unsigned long)`: take out the element at a position. -/
def remove (ds : DcmDataset) (num : Nat) : DcmDataset := ds.eraseIdx num

/-- Method `DcmItem::insert` with `replaceOld`: the element goes to its place in tag
order and replaces an element of the same tag. -/
def insert (tag : DcmTagKey) (val : OFString) : DcmDataset → DcmDataset
  | [] => [(tag, val)]
  | e :: rest =>
    if tag = e.1 then (tag, val) :: rest
    else if tag.lt e.1 then (tag, val) :: e :: rest
    else e :: insert tag val rest

/-- Method `DcmItem::insertEmptyElement(tag)`. -/
def insertEmptyElement (ds : DcmDataset) (tag : DcmTagKey) : DcmDataset :=
  insert tag [] ds

/-- Method `DcmItem::putAndInsertString(tag, const char*)`. -/
def putAndInsertString (ds : DcmDataset) (tag : DcmTagKey) (value : List Byte) : DcmDataset :=
  insert tag (cStr value) ds

/-- The value of the first element with a tag, if there is one. -/
def findElement (ds : DcmDataset) (tag : DcmTagKey) : Option OFString :=
  ds.lookup tag

/-- Method `DcmItem::findAndGetOFString(tag, value)`: the status and the value, which is
cleared when the lookup fails. -/
def findAndGetOFString (ds : DcmDataset) (tag : DcmTagKey) : Bool × OFString :=
  match ds.findElement tag with
  | some v => (true, v)
  | none => (false, [])

end DcmDataset

/-- A `FINDResponse`; only its dataset pointer, which may be `NULL`, is read. -/
structure FINDResponse where
  m_dataset : Option DcmDataset
deriving DecidableEq, Repr

def UID_FINDStudyRootQueryRetrieveInformationModel : String := "1.2.840.10008.5.1.4.1.2.2.1"
def UID_LittleEndianExplicitTransferSyntax : String := "1.2.840.10008.1.2.1"
def UID_BigEndianExplicitTransferSyntax : String := "1.2.840.10008.1.2.2"
def UID_LittleEndianImplicitTransferSyntax : String := "1.2.840.10008.1.2"

/-- The release kinds of `closeAssociation`. -/
inductive DcmCloseAssociationType where
  | DUL_COMMANDEDABORT
  | DUL_PEERREQUESTEDRELEASE
  | DUL_PEERABORTEDASSOCIATION
deriving DecidableEq, Repr

/-- Everything outside the object that a run of `query` reads: the database handle, the
network stack and the remote peer.  The answer to a find request may depend on how many
requests the run has sent before it, on the presentation context and on the dataset. -/
structure Peer where
  isOpen : Bool
  initNetwork : Bool
  findPresentationContextID : String → String → Nat
  sendFINDRequest : Nat → Nat → DcmDataset → Bool × List FINDResponse

/-- Severity of a `ctkLogger` call. -/
inductive LogLevel where
  | debug
  | info
  | error
deriving DecidableEq, Repr

/-- The externally visible actions of a run, in the order they happen. -/
inductive Event where
  | log (level : LogLevel) (msg : String)
  | progressText (msg : String)
  | progressInt (value : Int)
  | isOpen
  | setAETitle (title : OFString)
  | setPeerAETitle (title : OFString)
  | setPeerHostName (host : OFString)
  | setPeerPort (port : Nat)
  | addPresentationContext (abstractSyntax : String) (transferSyntaxes : List String)
  | initNetwork
  | negotiateAssociation
  | findPresentationContextID (abstractSyntax : String) (transferSyntax : String)
  | sendFINDRequest (presID : Nat) (query : DcmDataset)
  | closeAssociation (kind : DcmCloseAssociationType)
  | insert (dataset : DcmDataset)
deriving DecidableEq, Repr

/-- Class `ctkDICOMQueryPrivate` without the SCU, whose behaviour is the `Peer`. -/
structure ctkDICOMQueryPrivate where
  CallingAETitle : String
  CalledAETitle : String
  Host : String
  Port : Int
  Filters : QMap
  query : DcmDataset
  StudyInstanceUIDList : List String
deriving DecidableEq, Repr

/-! ## The method `ctkDICOMQuery::query` -/

namespace ctkDICOMQuery

/-- Method `ctkDICOMQuery::addStudyInstanceUID`. -/
def addStudyInstanceUID (d : ctkDICOMQueryPrivate) (s : String) : ctkDICOMQueryPrivate :=
  { d with StudyInstanceUIDList := d.StudyInstanceUIDList ++ [s] }

/-- Method `ctkDICOMQuery::studyInstanceUIDQueried`. -/
def studyInstanceUIDQueried (d : ctkDICOMQueryPrivate) : List String :=
  d.StudyInstanceUIDList

/-- The conversion of an `int` argument to the `Uint16` parameter of `setPeerPort`. -/
def toUint16 (n : Int) : Nat := (n % 65536).toNat

/-- The conversion of a `float` to the `int` parameter of the signal `progress(int)`. -/
def floatToInt (x : ℚ) : Int := if 0 ≤ x then ⌊x⌋ else ⌈x⌉

/-- Line 360, `float progressRatio = 25. / count`: the quotient is taken in `double` and
stored in a `float`. -/
def progressRatio (count : Nat) : ℚ := toFloat (toDouble (25 / (count : ℚ)))

/-- Lines 366 and 389, the argument of `progress(50 + (progressRatio * i++))`: the counter is
converted to `float`, the product and the sum are taken in `float`, and the sum is converted
to `int`. -/
def progressValue (ratio : ℚ) (i : Nat) : Int :=
  floatToInt (toFloat (50 + toFloat (ratio * toFloat (i : ℚ))))

/-- Lines 194-221: the database check, the SCU settings and the offered presentation
context, up to the call of `initNetwork`. -/
def setupEvents (d : ctkDICOMQueryPrivate) (env : Peer) : List Event :=
  (if env.isOpen
    then [Event.isOpen, .log .debug "DB open in Query", .progressText "DB open in Query"]
    else [Event.isOpen, .log .debug "DB not open in Query", .progressText "DB not open in Query"])
  ++ [.progressInt 0,
      .setAETitle (cStr (toAscii d.CallingAETitle)),
      .setPeerAETitle (cStr (toAscii d.CalledAETitle)),
      .setPeerHostName (cStr (toAscii d.Host)),
      .setPeerPort (toUint16 d.Port),
      .log .error "Setting Transfer Syntaxes",
      .progressText "Setting Transfer Syntaxes",
      .progressInt 10,
      .addPresentationContext UID_FINDStudyRootQueryRetrieveInformationModel
        [UID_LittleEndianExplicitTransferSyntax, UID_BigEndianExplicitTransferSyntax,
         UID_LittleEndianImplicitTransferSyntax],
      .initNetwork]

/-- Lines 237-242: `remove(0)` once for each element the dataset had. -/
def clearQuery : Nat → DcmDataset → DcmDataset
  | 0, q => q
  | n + 1, q => clearQuery n (q.remove 0)

/-- The tags of lines 243-261, in the order of the calls. -/
def placeholderTags : List DcmTagKey :=
  [DCM_PatientID, DCM_PatientsName, DCM_PatientsBirthDate, DCM_StudyID,
   DCM_StudyInstanceUID, DCM_StudyDescription, DCM_StudyDate, DCM_SeriesNumber,
   DCM_SeriesDescription, DCM_SeriesInstanceUID, DCM_StudyTime, DCM_SeriesDate,
   DCM_SeriesTime, DCM_Modality, DCM_ModalitiesInStudy, DCM_AccessionNumber,
   DCM_NumberOfSeriesRelatedInstances, DCM_NumberOfStudyRelatedInstances,
   DCM_NumberOfStudyRelatedSeries]

/-- Lines 236-263: the query dataset emptied, refilled with the empty placeholders and
set to the STUDY level. -/
def resetQuery (q : DcmDataset) : DcmDataset :=
  (placeholderTags.foldl DcmDataset.insertEmptyElement (clearQuery q.card q)).putAndInsertString
    DCM_QueryRetrieveLevel (toAscii "STUDY")

/-- The wildcard value of lines 271, 277, 283 and 289. -/
def wildcard (v : QVariant) : List Byte :=
  toAscii ("*" ++ v.toString ++ "*")

/-- Lines 294-299: every modality followed by a backslash, the last backslash chopped. -/
def modalitySearch (modalities : List String) : String :=
  chop (modalities.foldl (fun acc modality => acc ++ (modality ++ "\\")) "") 1

/-- Lines 267-302: the body of the loop over the filter keys, for one key. -/
def filterStep (filters : QMap) (acc : DcmDataset × List Event) (key : String) :
    DcmDataset × List Event :=
  let q0 := acc.1
  let q1 := if key = "Name"
    then q0.putAndInsertString DCM_PatientsName (wildcard (filters.value key)) else q0
  let q2 := if key = "Study"
    then q1.putAndInsertString DCM_StudyDescription (wildcard (filters.value key)) else q1
  let q3 := if key = "Series"
    then q2.putAndInsertString DCM_SeriesDescription (wildcard (filters.value key)) else q2
  let q4 := if key = "ID"
    then q3.putAndInsertString DCM_PatientID (wildcard (filters.value key)) else q3
  if key = "Modalities" then
    let search := modalitySearch (filters.value key).toStringList
    (q4.putAndInsertString DCM_ModalitiesInStudy (toAscii search),
     acc.2 ++ [.log .debug ("modalitySearch " ++ search)])
  else (q4, acc.2)

/-- Lines 265-303: the loop over `d->Filters.keys()`. -/
def applyFilters (filters : QMap) (q : DcmDataset) : DcmDataset × List Event :=
  filters.keys.foldl (filterStep filters) (q, [])

/-- Lines 309-318: the presentation context is looked up for the three transfer syntaxes in
turn until one is found. -/
def findContext (env : Peer) : Nat × List Event :=
  let model := UID_FINDStudyRootQueryRetrieveInformationModel
  let c1 := env.findPresentationContextID model UID_LittleEndianExplicitTransferSyntax
  let e1 := [Event.findPresentationContextID model UID_LittleEndianExplicitTransferSyntax]
  if c1 ≠ 0 then (c1, e1) else
  let c2 := env.findPresentationContextID model UID_BigEndianExplicitTransferSyntax
  let e2 := e1 ++ [.findPresentationContextID model UID_BigEndianExplicitTransferSyntax]
  if c2 ≠ 0 then (c2, e2) else
  (env.findPresentationContextID model UID_LittleEndianImplicitTransferSyntax,
   e2 ++ [.findPresentationContextID model UID_LittleEndianImplicitTransferSyntax])

/-- Lines 345-355: the loop over the responses of the STUDY level request. -/
def topLoop : List FINDResponse → ctkDICOMQueryPrivate → ctkDICOMQueryPrivate × List Event
  | [], d => (d, [])
  | r :: rest, d =>
    match r.m_dataset with
    | some dataset =>
      let StudyInstanceUID := (dataset.findAndGetOFString DCM_StudyInstanceUID).2
      let next := topLoop rest (addStudyInstanceUID d (fromAscii StudyInstanceUID))
      (next.1, Event.insert dataset :: next.2)
    | none => topLoop rest d

/-- Lines 373-380: the loop over the responses of one SERIES level request. -/
def insertLoop : List FINDResponse → List Event
  | [] => []
  | r :: rest =>
    match r.m_dataset with
    | some dataset => Event.insert dataset :: insertLoop rest
    | none => insertLoop rest

/-- Lines 362-391: the loop over the study instance UIDs.  The argument `i` is the counter
of the source, `sent` the number of find requests sent so far. -/
def childLoop (env : Peer) (ratio : ℚ) :
    List String → Nat → Nat → DcmDataset → DcmDataset × List Event
  | [], _, _, q => (q, [])
  | StudyInstanceUID :: rest, i, sent, q =>
    let q1 := q.putAndInsertString DCM_StudyInstanceUID (toAscii StudyInstanceUID)
    let answer := env.sendFINDRequest sent 0 q1
    let next := childLoop env ratio rest (i + 2) (sent + 1) q1
    (next.1,
     [.log .debug ("Starting Series C-FIND for Series: " ++ StudyInstanceUID),
      .progressText ("Starting Series C-FIND for Series: " ++ StudyInstanceUID),
      .progressInt (progressValue ratio i),
      .sendFINDRequest 0 q1]
     ++ (if answer.1
          then insertLoop answer.2
            ++ [.log .debug ("Find succeded for Series: " ++ StudyInstanceUID),
                .progressText ("Find succeded for Series: " ++ StudyInstanceUID)]
          else [.log .error ("Find failed for Series: " ++ StudyInstanceUID),
                .progressText ("Find failed for Series: " ++ StudyInstanceUID)])
     ++ [.progressInt (progressValue ratio (i + 1))]
     ++ next.2)

/-- The query dataset of the STUDY level request (lines 236-303) and the events of the
filter loop. -/
def topQuery (d : ctkDICOMQueryPrivate) : DcmDataset × List Event :=
  applyFilters d.Filters (resetQuery d.query)

/-- The answer of the peer to the STUDY level request (line 332). -/
def topAnswer (d : ctkDICOMQueryPrivate) (env : Peer) : Bool × List FINDResponse :=
  env.sendFINDRequest 0 (findContext env).1 (topQuery d).1

/-- The object after the STUDY level stage (lines 206 and 345-355). -/
def afterTop (d : ctkDICOMQueryPrivate) (env : Peer) : ctkDICOMQueryPrivate × List Event :=
  topLoop (topAnswer d env).2 { d with StudyInstanceUIDList := [], query := (topQuery d).1 }

/-- The query dataset at the start of the SERIES level loop (line 359). -/
def childQuery (d : ctkDICOMQueryPrivate) : DcmDataset :=
  (topQuery d).1.putAndInsertString DCM_QueryRetrieveLevel (toAscii "SERIES")

/-- Lines 360-391 for a run: the result of the loop over the collected UIDs.  With no UID
the ratio of the source is an infinity that no iteration reads; here it is `0`. -/
def childStage (d : ctkDICOMQueryPrivate) (env : Peer) : DcmDataset × List Event :=
  let uids := (afterTop d env).1.StudyInstanceUIDList
  childLoop env (progressRatio uids.length) uids 0 1 (childQuery d)

/-- Method `ctkDICOMQuery::query`: the object after the call and the trace of the call. -/
def query (d : ctkDICOMQueryPrivate) (env : Peer) : ctkDICOMQueryPrivate × List Event :=
  if ¬ env.initNetwork then
    ({ d with StudyInstanceUIDList := [] },
     setupEvents d env
     ++ [.log .error "Error initializing the network",
         .progressText "Error initializing the network",
         .progressInt 100])
  else
    let context := findContext env
    ({ (afterTop d env).1 with query := (childStage d env).1 },
     setupEvents d env
     ++ [.log .debug "Negotiating Association",
         .progressText "Negatiating Association",
         .progressInt 20,
         .negotiateAssociation]
     ++ (topQuery d).2
     ++ [.progressInt 30]
     ++ context.2
     ++ (if context.1 = 0
          then [.log .error "Failed to find acceptable presentation context",
                .progressText "Failed to find acceptable presentation context"]
          else [.log .info "Found useful presentation context",
                .progressText "Found useful presentation context"])
     ++ [.progressInt 40,
         .sendFINDRequest context.1 (topQuery d).1]
     ++ (if (topAnswer d env).1
          then [.log .debug "Find succeded", .progressText "Find succeded"]
          else [.log .error "Find failed", .progressText "Find failed"])
     ++ [.progressInt 50]
     ++ (afterTop d env).2
     ++ (childStage d env).2
     ++ [.closeAssociation .DUL_PEERREQUESTEDRELEASE,
         .progressInt 100])

end ctkDICOMQuery


/-! ## Reading a trace -/

/-- The find request an event is, if it is one. -/
def findRequestOf : Event → Option (Nat × DcmDataset)
  | .sendFINDRequest presID query => some (presID, query)
  | _ => none

/-- The find requests of a trace: presentation context and dataset, in the order sent. -/
def findRequests (tr : List Event) : List (Nat × DcmDataset) := tr.filterMap findRequestOf

/-- The dataset an event passes to `database.insert`, if it is an insert. -/
def insertOf : Event → Option DcmDataset
  | .insert dataset => some dataset
  | _ => none

/-- The datasets passed to `database.insert`, in order. -/
def inserted (tr : List Event) : List DcmDataset := tr.filterMap insertOf

/-- The value of a numeric progress event. -/
def progressIntOf : Event → Option Int
  | .progressInt value => some value
  | _ => none

/-- The numeric progress values of a trace, in order. -/
def progressInts (tr : List Event) : List Int := tr.filterMap progressIntOf

/-- Whether an event is an emission of the `progress` signal, textual or numeric. -/
def isProgress : Event → Bool
  | .progressText _ => true
  | .progressInt _ => true
  | _ => false

/-- The emissions of the `progress` signal, in order. -/
def progressTrace (tr : List Event) : List Event := tr.filter isProgress

/-- Whether an event is a call of `closeAssociation`. -/
def isClose : Event → Bool
  | .closeAssociation _ => true
  | _ => false

/-- Whether an event is a call of the SCU after `initNetwork`, or a database insert. -/
def usesSession : Event → Bool
  | .negotiateAssociation => true
  | .findPresentationContextID _ _ => true
  | .sendFINDRequest _ _ => true
  | .closeAssociation _ => true
  | .insert _ => true
  | _ => false

/-- The records of a response list: the datasets of the responses that carry one. -/
def records (rs : List FINDResponse) : List DcmDataset := rs.filterMap (fun r => r.m_dataset)

namespace ctkDICOMQuery

/-- The identifier line 351-353 reads from a record. -/
def identifier (dataset : DcmDataset) : String :=
  fromAscii (dataset.findAndGetOFString DCM_StudyInstanceUID).2

/-- The SERIES level dataset for one identifier: the dataset of line 359 with the
identifier written by line 368. -/
def childDataset (d : ctkDICOMQueryPrivate) (uid : String) : DcmDataset :=
  (childQuery d).putAndInsertString DCM_StudyInstanceUID (toAscii uid)

/-- The answers of the peer to SERIES level requests for a list of identifiers, the first
of them being request number `sent` of the run. -/
def childAnswersFrom (env : Peer) (q : DcmDataset) :
    List String → Nat → List (Bool × List FINDResponse)
  | [], _ => []
  | uid :: rest, sent =>
    env.sendFINDRequest sent 0 (q.putAndInsertString DCM_StudyInstanceUID (toAscii uid))
      :: childAnswersFrom env q rest (sent + 1)

/-- The answers of the peer to the SERIES level requests of a run. -/
def childAnswers (d : ctkDICOMQueryPrivate) (env : Peer) : List (Bool × List FINDResponse) :=
  childAnswersFrom env (childQuery d) (afterTop d env).1.StudyInstanceUIDList 1

/-- The answers of the peer to the find requests of a trace, in the order of the requests:
request number `k` of the run is answered by `sendFINDRequest k`. -/
def answers (env : Peer) (tr : List Event) : List (Bool × List FINDResponse) :=
  (List.enumFrom 0 (findRequests tr)).map (fun r => env.sendFINDRequest r.1 r.2.1 r.2.2)

end ctkDICOMQuery


/-! ## Properties of characters and the table of string filters -/

/-- A character with a Latin-1 code other than NUL. -/
def isLatin1Text (c : Char) : Prop := 0 < c.toNat ∧ c.toNat < 256

instance (c : Char) : Decidable (isLatin1Text c) :=
  inferInstanceAs (Decidable (0 < c.toNat ∧ c.toNat < 256))

/-- An ASCII character other than NUL. -/
def isAsciiText (c : Char) : Prop := 0 < c.toNat ∧ c.toNat < 128

instance (c : Char) : Decidable (isAsciiText c) :=
  inferInstanceAs (Decidable (0 < c.toNat ∧ c.toNat < 128))

/-- The string filter keys with the attribute each of them writes (lines 267-290). -/
def stringFilters : List (String × DcmTagKey) :=
  [("Name", DCM_PatientsName), ("Study", DCM_StudyDescription),
   ("Series", DCM_SeriesDescription), ("ID", DCM_PatientID)]

/-! ## Sample objects and peers -/

/-- A study record with a patient ID and the given study instance UID. -/
def studyRecord (uid : String) : DcmDataset :=
  [(DCM_PatientID, toAscii "12"), (DCM_StudyInstanceUID, toAscii uid)]

/-- A series record of a study. -/
def seriesRecord (uid : String) (series : String) : DcmDataset :=
  [(DCM_StudyInstanceUID, toAscii uid), (DCM_SeriesInstanceUID, toAscii series)]

/-- A record that has a patient ID and no study instance UID. -/
def recordWithoutUID : DcmDataset :=
  [(DCM_PatientID, toAscii "12")]

/-- A peer that accepts the second transfer syntax and returns two studies; its answer to
the first SERIES level request carries one record and reports failure, its answer to the
second carries one record and reports success. -/
def peerTwoStudies : Peer where
  isOpen := true
  initNetwork := true
  findPresentationContextID := fun _ ts =>
    if ts = UID_BigEndianExplicitTransferSyntax then 3 else 0
  sendFINDRequest := fun sent _ _ =>
    if sent = 0 then
      (true, [⟨some (studyRecord "1.2.3")⟩, ⟨some (studyRecord "1.2.4")⟩, ⟨none⟩])
    else if sent = 1 then (false, [⟨some (seriesRecord "1.2.3" "1.2.3.1")⟩])
    else (true, [⟨some (seriesRecord "1.2.4" "1.2.4.1")⟩, ⟨none⟩])

/-- A peer whose only match lacks the study instance UID. -/
def peerWithoutUID : Peer where
  isOpen := true
  initNetwork := true
  findPresentationContextID := fun _ _ => 1
  sendFINDRequest := fun sent _ _ =>
    if sent = 0 then (true, [⟨some recordWithoutUID⟩, ⟨none⟩]) else (true, [⟨none⟩])

/-- A peer for which the network cannot be initialised. -/
def peerInitFails : Peer where
  isOpen := false
  initNetwork := false
  findPresentationContextID := fun _ _ => 1
  sendFINDRequest := fun _ _ _ => (true, [⟨some (studyRecord "1.2.3")⟩])

/-- An object with the given filters, a used query dataset and a UID list left by an
earlier run. -/
def sampleQuery (filters : QMap) : ctkDICOMQueryPrivate where
  CallingAETitle := "CTK_AE"
  CalledAETitle := "ANY-SCP"
  Host := "localhost"
  Port := 11112
  Filters := filters
  query := [(DCM_QueryRetrieveLevel, toAscii "SERIES"), (DCM_StudyInstanceUID, toAscii "9.9")]
  StudyInstanceUIDList := ["9.9"]


/-! ## Lemmas on strings -/

theorem cStr_eq_self {l : List Byte} (h : ∀ b ∈ l, b ≠ 0) : cStr l = l := by
  unfold cStr
  rw [List.takeWhile_eq_self_iff]
  intro b hb
  simpa using h b hb

theorem cStr_ne_zero {l : List Byte} : ∀ b ∈ cStr l, b ≠ 0 := by
  intro b hb
  have := List.mem_takeWhile_imp hb
  simpa using this

theorem cStr_idem (l : List Byte) : cStr (cStr l) = cStr l :=
  cStr_eq_self cStr_ne_zero

theorem toNat_ofNat_byte (b : Byte) : (Char.ofNat b.val).toNat = b.val := by
  have hb := b.isLt
  have hv : Nat.isValidChar b.val := Or.inl (by omega)
  unfold Char.ofNat
  rw [dif_pos hv]
  simp [Char.ofNatAux, Char.toNat, UInt32.toNat]

theorem toLatin1_ofNat_byte (b : Byte) : toLatin1 (Char.ofNat b.val) = b := by
  unfold toLatin1
  have h := toNat_ofNat_byte b
  have hb : (Char.ofNat b.val).toNat < 256 := by rw [h]; exact b.isLt
  rw [dif_pos hb]
  exact Fin.ext h

theorem toAscii_fromAscii (buf : List Byte) : toAscii (fromAscii buf) = cStr buf := by
  unfold toAscii fromAscii
  simp only [List.map_map]
  conv_rhs => rw [← List.map_id (cStr buf)]
  apply List.map_congr_left
  intro b _
  simp [toLatin1_ofNat_byte]

theorem toLatin1_ne_zero {c : Char} (h : isLatin1Text c) : toLatin1 c ≠ 0 := by
  unfold toLatin1
  rw [dif_pos h.2]
  intro h0
  have := congrArg Fin.val h0
  simp at this
  exact absurd this (Nat.pos_iff_ne_zero.mp h.1)

theorem ofNat_toLatin1 {c : Char} (h : isLatin1Text c) : Char.ofNat (toLatin1 c).val = c := by
  unfold toLatin1
  rw [dif_pos h.2]
  simp

theorem cStr_toAscii {s : String} (h : ∀ c ∈ s.data, isLatin1Text c) :
    cStr (toAscii s) = toAscii s := by
  apply cStr_eq_self
  intro b hb
  unfold toAscii at hb
  obtain ⟨c, hc, rfl⟩ := List.mem_map.mp hb
  exact toLatin1_ne_zero (h c hc)

theorem fromAscii_toAscii {s : String} (h : ∀ c ∈ s.data, isLatin1Text c) :
    fromAscii (toAscii s) = s := by
  unfold fromAscii
  rw [cStr_toAscii h]
  unfold toAscii
  apply String.ext
  simp only [List.map_map]
  conv_rhs => rw [← List.map_id s.data]
  apply List.map_congr_left
  intro c hc
  simp [ofNat_toLatin1 (h c hc)]

theorem fromAscii_latin1 (buf : List Byte) : ∀ c ∈ (fromAscii buf).data, isLatin1Text c := by
  intro c hc
  unfold fromAscii at hc
  obtain ⟨b, hb, rfl⟩ := List.mem_map.mp hc
  have hne := cStr_ne_zero b hb
  unfold isLatin1Text
  rw [toNat_ofNat_byte]
  refine ⟨?_, b.isLt⟩
  rcases Nat.eq_zero_or_pos b.val with h0 | h0
  · exact absurd (Fin.ext h0) hne
  · exact h0

theorem chop_append_one (s : String) (c : Char) : chop (s ++ String.mk [c]) 1 = s := by
  unfold chop
  apply String.ext
  simp

theorem foldl_modality (sep : String) (as : List String) (acc : String) :
    as.foldl (fun acc modality => acc ++ (modality ++ sep)) (acc ++ sep)
      = String.intercalate.go acc sep as ++ sep := by
  induction as generalizing acc with
  | nil => simp [String.intercalate.go]
  | cons a as ih =>
    simp only [List.foldl_cons, String.intercalate.go]
    rw [← ih (acc ++ sep ++ a)]
    simp [String.append_assoc]

theorem modalitySearch_eq (ms : List String) :
    ctkDICOMQuery.modalitySearch ms = String.intercalate "\\" ms := by
  unfold ctkDICOMQuery.modalitySearch
  cases ms with
  | nil => decide
  | cons a as =>
    simp only [List.foldl_cons, String.intercalate]
    have h : ("" : String) ++ (a ++ "\\") = a ++ "\\" := by simp
    rw [h, foldl_modality]
    exact chop_append_one _ _


/-! ## Lemmas on rounding -/

theorem floor_le_roundHalfEven (m : ℚ) : ⌊m⌋ ≤ roundHalfEven m := by
  unfold roundHalfEven
  split_ifs <;> omega

theorem roundHalfEven_le (m : ℚ) : (roundHalfEven m : ℚ) ≤ m + 1 / 2 := by
  have hf : (⌊m⌋ : ℚ) ≤ m := Int.floor_le m
  unfold roundHalfEven
  split_ifs with h1 h2 h3
  · linarith
  · push_cast
    linarith
  · linarith
  · push_cast
    linarith

theorem roundHalfEven_of_near {m : ℚ} {n : ℤ} (h : |m - n| < 1 / 2) : roundHalfEven m = n := by
  rw [abs_lt] at h
  unfold roundHalfEven
  rcases le_or_lt (n : ℚ) m with hle | hlt
  · have hfl : ⌊m⌋ = n := by
      rw [Int.floor_eq_iff]
      constructor <;> linarith
    rw [hfl, if_pos (by linarith)]
  · have hfl : ⌊m⌋ = n - 1 := by
      rw [Int.floor_eq_iff]
      push_cast
      constructor <;> linarith
    rw [hfl]
    push_cast
    rw [if_neg (by linarith), if_pos (by linarith)]
    ring

theorem ulp_pos (p : ℕ) (x : ℚ) : 0 < ulp p x := by
  unfold ulp
  positivity

theorem ulp_eq_of_bounds {p : ℕ} {x : ℚ} {j : ℤ} (h1 : (2 : ℚ) ^ j ≤ |x|)
    (h2 : |x| < (2 : ℚ) ^ (j + 1)) : ulp p x = 2 ^ (j - p + 1) := by
  have hpos : 0 < |x| := lt_of_lt_of_le (by positivity) h1
  have hlog : Int.log 2 |x| = j := by
    apply le_antisymm
    · have := (Int.lt_zpow_iff_log_lt (b := 2) (by norm_num) hpos (x := j + 1)).mp
        (by exact_mod_cast h2)
      omega
    · exact (Int.zpow_le_iff_le_log (b := 2) (by norm_num) hpos).mp (by exact_mod_cast h1)
  unfold ulp
  rw [hlog]

theorem roundTo_zero (p : ℕ) : roundTo p 0 = 0 := by
  simp [roundTo, roundHalfEven]

theorem roundTo_nonneg (p : ℕ) {x : ℚ} (hx : 0 ≤ x) : 0 ≤ roundTo p x := by
  unfold roundTo
  have hu := ulp_pos p x
  have hm : 0 ≤ x / ulp p x := div_nonneg hx hu.le
  have hf : 0 ≤ ⌊x / ulp p x⌋ := Int.floor_nonneg.mpr hm
  have hn : (0 : ℚ) ≤ roundHalfEven (x / ulp p x) := by
    exact_mod_cast le_trans hf (floor_le_roundHalfEven _)
  exact mul_nonneg hn hu.le

theorem ulp_le {p : ℕ} {x : ℚ} (hx : 0 < x) : ulp p x ≤ x * 2 ^ (1 - (p : ℤ)) := by
  have hlog : (2 : ℚ) ^ Int.log 2 x ≤ x := by
    exact_mod_cast Int.zpow_log_le_self (b := 2) (by norm_num) hx
  unfold ulp
  rw [abs_of_pos hx]
  have e : Int.log 2 x - (p : ℤ) + 1 = Int.log 2 x + (1 - (p : ℤ)) := by ring
  rw [e, zpow_add₀ (by norm_num : (2 : ℚ) ≠ 0)]
  exact mul_le_mul_of_nonneg_right hlog (by positivity)

theorem roundTo_le_add {p : ℕ} (x : ℚ) : roundTo p x ≤ x + ulp p x / 2 := by
  unfold roundTo
  have hu := ulp_pos p x
  have h := roundHalfEven_le (x / ulp p x)
  calc (roundHalfEven (x / ulp p x) : ℚ) * ulp p x
      ≤ (x / ulp p x + 1 / 2) * ulp p x := mul_le_mul_of_nonneg_right h hu.le
    _ = x + ulp p x / 2 := by
      field_simp
      ring

theorem roundTo_le_mul {p : ℕ} {x : ℚ} (hx : 0 ≤ x) :
    roundTo p x ≤ x * (1 + 2 ^ (-(p : ℤ))) := by
  rcases hx.eq_or_lt with h0 | hpos
  · rw [← h0, roundTo_zero]
    simp
  · have h1 := roundTo_le_add (p := p) x
    have h2 := ulp_le (p := p) hpos
    have e : (2 : ℚ) ^ (1 - (p : ℤ)) = 2 * 2 ^ (-(p : ℤ)) := by
      rw [sub_eq_add_neg, zpow_add₀ (by norm_num : (2 : ℚ) ≠ 0)]
      simp
    rw [e] at h2
    linarith

theorem le_roundTo_of_grid {p : ℕ} {x : ℚ} (k : ℤ) (h : (k : ℚ) * ulp p x ≤ x) :
    (k : ℚ) * ulp p x ≤ roundTo p x := by
  unfold roundTo
  have hu := ulp_pos p x
  have hk : (k : ℚ) ≤ x / ulp p x := (le_div_iff₀ hu).mpr h
  have hf : k ≤ ⌊x / ulp p x⌋ := Int.le_floor.mpr hk
  have hn : (k : ℚ) ≤ roundHalfEven (x / ulp p x) := by
    exact_mod_cast le_trans hf (floor_le_roundHalfEven _)
  exact mul_le_mul_of_nonneg_right hn hu.le

theorem roundHalfEven_of_tie_odd {m : ℚ} {f : ℤ} (h : m = f + 1 / 2) (hodd : f % 2 = 1) :
    roundHalfEven m = f + 1 := by
  have hfl : ⌊m⌋ = f := by
    rw [Int.floor_eq_iff]
    constructor <;> linarith
  unfold roundHalfEven
  rw [hfl, if_neg (by linarith), if_neg (by linarith), if_neg (by omega)]

theorem roundHalfEven_of_tie_even {m : ℚ} {f : ℤ} (h : m = f + 1 / 2) (heven : f % 2 = 0) :
    roundHalfEven m = f := by
  have hfl : ⌊m⌋ = f := by
    rw [Int.floor_eq_iff]
    constructor <;> linarith
  unfold roundHalfEven
  rw [hfl, if_neg (by linarith), if_neg (by linarith), if_pos heven]

theorem ulp_eq_of_pos_bounds {p : ℕ} {x : ℚ} {j : ℤ} (h1 : (2 : ℚ) ^ j ≤ x)
    (h2 : x < (2 : ℚ) ^ (j + 1)) : ulp p x = 2 ^ (j - p + 1) := by
  have hpos : 0 < x := lt_of_lt_of_le (by positivity) h1
  have ha : |x| = x := abs_of_pos hpos
  exact ulp_eq_of_bounds (by rw [ha]; exact h1) (by rw [ha]; exact h2)

theorem roundTo_eq_of_bounds {p : ℕ} {x : ℚ} (j n : ℤ) (h1 : (2 : ℚ) ^ j ≤ x)
    (h2 : x < (2 : ℚ) ^ (j + 1)) (hlo : -(1 / 2) < x / 2 ^ (j - p + 1) - n)
    (hhi : x / 2 ^ (j - p + 1) - n < 1 / 2) :
    roundTo p x = n * 2 ^ (j - p + 1) := by
  unfold roundTo
  rw [ulp_eq_of_pos_bounds h1 h2, roundHalfEven_of_near (abs_lt.mpr ⟨hlo, hhi⟩)]

theorem roundTo_eq_of_tie_odd {p : ℕ} {x : ℚ} (j f : ℤ) (h1 : (2 : ℚ) ^ j ≤ x)
    (h2 : x < (2 : ℚ) ^ (j + 1)) (h : x / 2 ^ (j - p + 1) = f + 1 / 2) (hodd : f % 2 = 1) :
    roundTo p x = (f + 1 : ℤ) * 2 ^ (j - p + 1) := by
  unfold roundTo
  rw [ulp_eq_of_pos_bounds h1 h2, roundHalfEven_of_tie_odd h hodd]

theorem roundTo_eq_of_tie_even {p : ℕ} {x : ℚ} (j f : ℤ) (h1 : (2 : ℚ) ^ j ≤ x)
    (h2 : x < (2 : ℚ) ^ (j + 1)) (h : x / 2 ^ (j - p + 1) = f + 1 / 2) (heven : f % 2 = 0) :
    roundTo p x = (f : ℤ) * 2 ^ (j - p + 1) := by
  unfold roundTo
  rw [ulp_eq_of_pos_bounds h1 h2, roundHalfEven_of_tie_even h heven]

/-! ## Lemmas on datasets -/

namespace DcmDataset

theorem findElement_insert_self (tag : DcmTagKey) (val : OFString) (ds : DcmDataset) :
    findElement (insert tag val ds) tag = some val := by
  induction ds with
  | nil => simp [insert, findElement, List.lookup]
  | cons e rest ih =>
    unfold insert
    by_cases h1 : tag = e.1
    · simp [h1, findElement, List.lookup]
    · by_cases h2 : tag.lt e.1 = true
      · simp [h1, h2, findElement, List.lookup]
      · have h3 : (tag == e.1) = false := by simpa using h1
        simp only [h1, h2, if_false, findElement, List.lookup] at ih ⊢
        cases e with
        | mk t v =>
          simp only [List.lookup, h3]
          exact ih

theorem findElement_insert_ne {tag other : DcmTagKey} (val : OFString) (ds : DcmDataset)
    (h : other ≠ tag) : findElement (insert tag val ds) other = findElement ds other := by
  have hb : (other == tag) = false := by simpa using h
  induction ds with
  | nil => simp [insert, findElement, List.lookup, hb]
  | cons e rest ih =>
    cases e with
    | mk t v =>
      unfold insert
      by_cases h1 : tag = t
      · subst h1
        simp [findElement, List.lookup, hb]
      · by_cases h2 : tag.lt t = true
        · simp [h1, h2, findElement, List.lookup, hb]
        · simp only [h1, h2, if_false, findElement, List.lookup] at ih ⊢
          cases (other == t) <;> simp [ih]

theorem insert_insert (tag : DcmTagKey) (v w : OFString) (ds : DcmDataset) :
    insert tag w (insert tag v ds) = insert tag w ds := by
  induction ds with
  | nil => simp [insert]
  | cons e rest ih =>
    by_cases h1 : tag = e.1
    · simp [insert, h1]
    · by_cases h2 : tag.lt e.1 = true
      · simp [insert, h1, h2]
      · simp [insert, h1, h2, ih]

theorem findElement_put_self (ds : DcmDataset) (tag : DcmTagKey) (value : List Byte) :
    findElement (ds.putAndInsertString tag value) tag = some (cStr value) :=
  findElement_insert_self tag _ ds

theorem findElement_put_ne (ds : DcmDataset) {tag other : DcmTagKey} (value : List Byte)
    (h : other ≠ tag) :
    findElement (ds.putAndInsertString tag value) other = findElement ds other :=
  findElement_insert_ne _ ds h

theorem put_put (ds : DcmDataset) (tag : DcmTagKey) (v w : List Byte) :
    (ds.putAndInsertString tag v).putAndInsertString tag w = ds.putAndInsertString tag w :=
  insert_insert tag _ _ ds

end DcmDataset

namespace ctkDICOMQuery

open DcmDataset

theorem clearQuery_card (q : DcmDataset) : clearQuery q.card q = [] := by
  induction q with
  | nil => rfl
  | cons e rest ih =>
    simpa [DcmDataset.card, clearQuery, DcmDataset.remove] using ih

theorem resetQuery_const (q q2 : DcmDataset) : resetQuery q = resetQuery q2 := by
  unfold resetQuery
  rw [clearQuery_card, clearQuery_card]


/-! ## The filter loop -/

theorem filterStep_events (filters : QMap) (acc : DcmDataset × List Event) (key : String) :
    ∃ msgs : List String,
      (filterStep filters acc key).2 = acc.2 ++ msgs.map (Event.log LogLevel.debug) := by
  unfold filterStep
  by_cases h : key = "Modalities"
  · exact ⟨["modalitySearch " ++ modalitySearch (filters.value key).toStringList], by simp [h]⟩
  · exact ⟨[], by simp [h]⟩

theorem foldl_filterStep_events (filters : QMap) (ks : List String)
    (acc : DcmDataset × List Event) :
    ∃ msgs : List String,
      (ks.foldl (filterStep filters) acc).2 = acc.2 ++ msgs.map (Event.log LogLevel.debug) := by
  induction ks generalizing acc with
  | nil => exact ⟨[], by simp⟩
  | cons k rest ih =>
    obtain ⟨m1, h1⟩ := filterStep_events filters acc k
    obtain ⟨m2, h2⟩ := ih (filterStep filters acc k)
    exact ⟨m1 ++ m2, by simp [List.foldl_cons, h2, h1]⟩

theorem topQuery_events (d : ctkDICOMQueryPrivate) :
    ∃ msgs : List String, (topQuery d).2 = msgs.map (Event.log LogLevel.debug) := by
  obtain ⟨msgs, h⟩ := foldl_filterStep_events d.Filters d.Filters.keys (resetQuery d.query, [])
  exact ⟨msgs, by simpa [topQuery, applyFilters] using h⟩

theorem filterStep_find_name (filters : QMap) (acc : DcmDataset × List Event) (key : String) :
    findElement (filterStep filters acc key).1 DCM_PatientsName
      = if key = "Name" then some (cStr (wildcard (filters.value "Name")))
        else findElement acc.1 DCM_PatientsName := by
  unfold filterStep
  by_cases h1 : key = "Name"
  · subst h1
    simp [findElement_put_self]
  · simp only [h1, if_false]
    split_ifs <;>
      simp [findElement_put_ne, DCM_PatientsName, DCM_StudyDescription, DCM_SeriesDescription,
        DCM_PatientID, DCM_ModalitiesInStudy]


theorem filterStep_find_study (filters : QMap) (acc : DcmDataset × List Event) (key : String) :
    findElement (filterStep filters acc key).1 DCM_StudyDescription
      = if key = "Study" then some (cStr (wildcard (filters.value "Study")))
        else findElement acc.1 DCM_StudyDescription := by
  unfold filterStep
  by_cases h1 : key = "Study"
  · subst h1
    simp [findElement_put_self]
  · simp only [h1, if_false]
    split_ifs <;>
      simp [findElement_put_ne, DCM_PatientsName, DCM_StudyDescription, DCM_SeriesDescription,
        DCM_PatientID, DCM_ModalitiesInStudy]

theorem filterStep_find_series (filters : QMap) (acc : DcmDataset × List Event) (key : String) :
    findElement (filterStep filters acc key).1 DCM_SeriesDescription
      = if key = "Series" then some (cStr (wildcard (filters.value "Series")))
        else findElement acc.1 DCM_SeriesDescription := by
  unfold filterStep
  by_cases h1 : key = "Series"
  · subst h1
    simp [findElement_put_self]
  · simp only [h1, if_false]
    split_ifs <;>
      simp [findElement_put_ne, DCM_PatientsName, DCM_StudyDescription, DCM_SeriesDescription,
        DCM_PatientID, DCM_ModalitiesInStudy]

theorem filterStep_find_id (filters : QMap) (acc : DcmDataset × List Event) (key : String) :
    findElement (filterStep filters acc key).1 DCM_PatientID
      = if key = "ID" then some (cStr (wildcard (filters.value "ID")))
        else findElement acc.1 DCM_PatientID := by
  unfold filterStep
  by_cases h1 : key = "ID"
  · subst h1
    simp [findElement_put_self]
  · simp only [h1, if_false]
    split_ifs <;>
      simp [findElement_put_ne, DCM_PatientsName, DCM_StudyDescription, DCM_SeriesDescription,
        DCM_PatientID, DCM_ModalitiesInStudy]

theorem filterStep_find_modalities (filters : QMap) (acc : DcmDataset × List Event)
    (key : String) :
    findElement (filterStep filters acc key).1 DCM_ModalitiesInStudy
      = if key = "Modalities"
        then some (cStr (toAscii (modalitySearch (filters.value "Modalities").toStringList)))
        else findElement acc.1 DCM_ModalitiesInStudy := by
  unfold filterStep
  by_cases h1 : key = "Modalities"
  · subst h1
    simp [findElement_put_self]
  · simp only [h1, if_false]
    split_ifs <;>
      simp [findElement_put_ne, DCM_PatientsName, DCM_StudyDescription, DCM_SeriesDescription,
        DCM_PatientID, DCM_ModalitiesInStudy]

theorem filterStep_find_level (filters : QMap) (acc : DcmDataset × List Event) (key : String) :
    findElement (filterStep filters acc key).1 DCM_QueryRetrieveLevel
      = findElement acc.1 DCM_QueryRetrieveLevel := by
  unfold filterStep
  simp only []
  split_ifs <;>
    simp [findElement_put_ne, DCM_PatientsName, DCM_StudyDescription, DCM_SeriesDescription,
      DCM_PatientID, DCM_ModalitiesInStudy, DCM_QueryRetrieveLevel]

/-- A loop whose body sets the value of a tag for one key and keeps it for the others
leaves the value of that key when the key is met, the initial value when it is not. -/
theorem foldl_filterStep_find (filters : QMap) (tag : DcmTagKey) (K : String) (V : OFString)
    (hstep : ∀ acc key, findElement (filterStep filters acc key).1 tag
      = if key = K then some V else findElement acc.1 tag)
    (ks : List String) (acc : DcmDataset × List Event) :
    findElement (ks.foldl (filterStep filters) acc).1 tag
      = if K ∈ ks then some V else findElement acc.1 tag := by
  induction ks generalizing acc with
  | nil => simp
  | cons k rest ih =>
    rw [List.foldl_cons, ih, hstep]
    by_cases h1 : K ∈ rest
    · simp [h1]
    · by_cases h2 : k = K
      · simp [h2]
      · have h3 : ¬ K = k := fun h => h2 h.symm
        simp [h1, h2, h3]

theorem foldl_filterStep_level (filters : QMap) (ks : List String)
    (acc : DcmDataset × List Event) :
    findElement (ks.foldl (filterStep filters) acc).1 DCM_QueryRetrieveLevel
      = findElement acc.1 DCM_QueryRetrieveLevel := by
  induction ks generalizing acc with
  | nil => rfl
  | cons k rest ih => rw [List.foldl_cons, ih, filterStep_find_level]

theorem mem_keys (m : QMap) (K : String) : K ∈ m.keys ↔ K ∈ m.map Prod.fst := by
  unfold QMap.keys
  rw [(List.perm_insertionSort _ _).mem_iff, List.mem_dedup]

theorem mem_keys_of_lookup {m : QMap} {K : String} {v : QVariant}
    (h : m.lookup K = some v) : K ∈ m.keys := by
  rw [mem_keys]
  induction m with
  | nil => simp [List.lookup] at h
  | cons e rest ih =>
    cases e with
    | mk k w =>
      by_cases hk : K = k
      · simp [hk]
      · have hb : (K == k) = false := by simpa using hk
        simp only [List.lookup, hb] at h
        simp [ih h]

theorem value_of_lookup {m : QMap} {K : String} {v : QVariant}
    (h : m.lookup K = some v) : m.value K = v := by
  simp [QMap.value, h]

theorem topQuery_level (d : ctkDICOMQueryPrivate) :
    findElement (topQuery d).1 DCM_QueryRetrieveLevel = some (toAscii "STUDY") := by
  unfold topQuery applyFilters
  rw [foldl_filterStep_level]
  unfold resetQuery
  rw [findElement_put_self]
  decide


/-! ## The stages of a run, read through the trace -/

theorem findRequests_append (a b : List Event) :
    findRequests (a ++ b) = findRequests a ++ findRequests b := by
  simp [findRequests]

theorem inserted_append (a b : List Event) : inserted (a ++ b) = inserted a ++ inserted b := by
  simp [inserted]

theorem progressInts_append (a b : List Event) :
    progressInts (a ++ b) = progressInts a ++ progressInts b := by
  simp [progressInts]

theorem findRequests_logs (msgs : List String) :
    findRequests (msgs.map (Event.log LogLevel.debug)) = [] := by
  induction msgs with
  | nil => rfl
  | cons m rest ih => simp_all [findRequests, findRequestOf]

theorem inserted_logs (msgs : List String) :
    inserted (msgs.map (Event.log LogLevel.debug)) = [] := by
  induction msgs with
  | nil => rfl
  | cons m rest ih => simp_all [inserted, insertOf]

theorem filter_isClose_logs (msgs : List String) :
    (msgs.map (Event.log LogLevel.debug)).filter isClose = [] := by
  induction msgs with
  | nil => rfl
  | cons m rest ih => simp_all [isClose]

theorem filter_usesSession_logs (msgs : List String) :
    (msgs.map (Event.log LogLevel.debug)).filter usesSession = [] := by
  induction msgs with
  | nil => rfl
  | cons m rest ih => simp_all [usesSession]

theorem findRequests_setupEvents (d : ctkDICOMQueryPrivate) (env : Peer) :
    findRequests (setupEvents d env) = [] := by
  unfold setupEvents
  split <;> simp [findRequests, findRequestOf]

theorem inserted_setupEvents (d : ctkDICOMQueryPrivate) (env : Peer) :
    inserted (setupEvents d env) = [] := by
  unfold setupEvents
  split <;> simp [inserted, insertOf]

theorem filter_isClose_setupEvents (d : ctkDICOMQueryPrivate) (env : Peer) :
    (setupEvents d env).filter isClose = [] := by
  unfold setupEvents
  split <;> simp [isClose]

theorem filter_usesSession_setupEvents (d : ctkDICOMQueryPrivate) (env : Peer) :
    (setupEvents d env).filter usesSession = [] := by
  unfold setupEvents
  split <;> simp [usesSession]

theorem progressInts_setupEvents (d : ctkDICOMQueryPrivate) (env : Peer) :
    progressInts (setupEvents d env) = [0, 10] := by
  unfold setupEvents
  split <;> simp [progressInts, progressIntOf]

theorem getLast_setupEvents (d : ctkDICOMQueryPrivate) (env : Peer) :
    (setupEvents d env).getLast? = some Event.initNetwork := by
  unfold setupEvents
  split <;> simp

theorem findRequests_findContext (env : Peer) : findRequests (findContext env).2 = [] := by
  unfold findContext
  simp only []
  split_ifs <;> simp [findRequests, findRequestOf]

theorem inserted_findContext (env : Peer) : inserted (findContext env).2 = [] := by
  unfold findContext
  simp only []
  split_ifs <;> simp [inserted, insertOf]

theorem filter_isClose_findContext (env : Peer) :
    (findContext env).2.filter isClose = [] := by
  unfold findContext
  simp only []
  split_ifs <;> simp [isClose]

theorem topLoop_events (rs : List FINDResponse) (d : ctkDICOMQueryPrivate) :
    (topLoop rs d).2 = (records rs).map Event.insert := by
  induction rs generalizing d with
  | nil => rfl
  | cons r rest ih =>
    cases hr : r.m_dataset with
    | none => simp [topLoop, records, hr, ih] 
    | some ds => simp [topLoop, records, hr, ih]

theorem topLoop_state (rs : List FINDResponse) (d : ctkDICOMQueryPrivate) :
    (topLoop rs d).1
      = { d with StudyInstanceUIDList := d.StudyInstanceUIDList ++ (records rs).map identifier } := by
  induction rs generalizing d with
  | nil => simp [topLoop, records]
  | cons r rest ih =>
    cases hr : r.m_dataset with
    | none => simp [topLoop, records, hr, ih]
    | some ds => simp [topLoop, records, hr, ih, addStudyInstanceUID, identifier]

theorem insertLoop_eq (rs : List FINDResponse) :
    insertLoop rs = (records rs).map Event.insert := by
  induction rs with
  | nil => rfl
  | cons r rest ih =>
    cases hr : r.m_dataset with
    | none => simp [insertLoop, records, hr, ih] 
    | some ds => simp [insertLoop, records, hr, ih]

theorem findRequests_inserts (l : List DcmDataset) :
    findRequests (l.map Event.insert) = [] := by
  induction l with
  | nil => rfl
  | cons m rest ih => simp_all [findRequests, findRequestOf]

theorem inserted_inserts (l : List DcmDataset) : inserted (l.map Event.insert) = l := by
  induction l with
  | nil => rfl
  | cons m rest ih => simp_all [inserted, insertOf]

theorem progressInts_inserts (l : List DcmDataset) :
    progressInts (l.map Event.insert) = [] := by
  induction l with
  | nil => rfl
  | cons m rest ih => simp_all [progressInts, progressIntOf]

theorem filter_isClose_inserts (l : List DcmDataset) :
    (l.map Event.insert).filter isClose = [] := by
  induction l with
  | nil => rfl
  | cons m rest ih => simp_all [isClose]

theorem afterTop_uids (d : ctkDICOMQueryPrivate) (env : Peer) :
    (afterTop d env).1.StudyInstanceUIDList = (records (topAnswer d env).2).map identifier := by
  unfold afterTop
  rw [topLoop_state]
  simp

theorem afterTop_events (d : ctkDICOMQueryPrivate) (env : Peer) :
    (afterTop d env).2 = (records (topAnswer d env).2).map Event.insert := by
  unfold afterTop
  rw [topLoop_events]


/-! ## The SERIES level loop -/

theorem childLoop_findRequests (env : Peer) (r : ℚ) (uids : List String) (i sent : Nat)
    (q : DcmDataset) :
    findRequests (childLoop env r uids i sent q).2
      = uids.map (fun u => (0, q.putAndInsertString DCM_StudyInstanceUID (toAscii u))) := by
  induction uids generalizing i sent q with
  | nil => rfl
  | cons u rest ih =>
    simp only [childLoop, findRequests_append, ih, put_put, List.map_cons]
    split <;>
      simp [findRequests, findRequestOf, insertLoop_eq, List.filterMap_map, Function.comp_def]

theorem childAnswersFrom_put (env : Peer) (q : DcmDataset) (v : List Byte) (uids : List String)
    (sent : Nat) :
    childAnswersFrom env (q.putAndInsertString DCM_StudyInstanceUID v) uids sent
      = childAnswersFrom env q uids sent := by
  induction uids generalizing sent with
  | nil => rfl
  | cons u rest ih => simp [childAnswersFrom, put_put, ih]

theorem childLoop_inserted (env : Peer) (r : ℚ) (uids : List String) (i sent : Nat)
    (q : DcmDataset) :
    inserted (childLoop env r uids i sent q).2
      = ((childAnswersFrom env q uids sent).map
          (fun a => if a.1 then records a.2 else [])).flatten := by
  induction uids generalizing i sent q with
  | nil => rfl
  | cons u rest ih =>
    simp only [childLoop, inserted_append, ih, childAnswersFrom_put, childAnswersFrom,
      List.map_cons, List.flatten_cons]
    split <;>
      simp [inserted, insertOf, insertLoop_eq, List.filterMap_map, Function.comp_def]

theorem childLoop_filter_isClose (env : Peer) (r : ℚ) (uids : List String) (i sent : Nat)
    (q : DcmDataset) :
    (childLoop env r uids i sent q).2.filter isClose = [] := by
  induction uids generalizing i sent q with
  | nil => rfl
  | cons u rest ih =>
    simp only [childLoop, List.filter_append, ih]
    split <;> simp [isClose, insertLoop_eq, List.filter_map, Function.comp_def]

theorem childLoop_progressInts (env : Peer) (r : ℚ) (uids : List String) (i sent : Nat)
    (q : DcmDataset) :
    progressInts (childLoop env r uids i sent q).2
      = (List.range' i (2 * uids.length)).map (fun (j : Nat) => progressValue r j) := by
  induction uids generalizing i sent q with
  | nil => rfl
  | cons u rest ih =>
    have hlen : 2 * (u :: rest).length = (2 * rest.length + 1) + 1 := by
      simp [List.length_cons]; ring
    rw [hlen, List.range'_succ, List.range'_succ]
    simp only [childLoop, progressInts_append, ih, List.map_cons]
    split <;>
      simp [progressInts, progressIntOf, insertLoop_eq, List.filterMap_map, Function.comp_def,
        Nat.add_assoc]

/-! ## The progress values of the SERIES level loop -/

theorem fifty_le_toFloat {y : ℚ} (h1 : 50 ≤ y) (h2 : y < 128) : 50 ≤ toFloat y := by
  have hpos : 0 < y := by linarith
  have ha : |y| = y := abs_of_pos hpos
  rcases lt_or_le y 64 with h64 | h64
  · have hu : ulp 24 y = 2 ^ ((5 : ℤ) - (24 : ℕ) + 1) :=
      ulp_eq_of_bounds (by rw [ha]; norm_num; linarith) (by rw [ha]; norm_num; linarith)
    have h := le_roundTo_of_grid (p := 24) (x := y) (50 * 2 ^ 18) (by rw [hu]; norm_num; linarith)
    rw [hu] at h
    norm_num at h
    exact h
  · have hu : ulp 24 y = 2 ^ ((6 : ℤ) - (24 : ℕ) + 1) :=
      ulp_eq_of_bounds (by rw [ha]; norm_num; linarith) (by rw [ha]; norm_num; linarith)
    have h := le_roundTo_of_grid (p := 24) (x := y) (50 * 2 ^ 17) (by rw [hu]; norm_num; linarith)
    rw [hu] at h
    norm_num at h
    exact h

theorem toFloat_le {x : ℚ} (hx : 0 ≤ x) : toFloat x ≤ x * (1001 / 1000) := by
  have h := roundTo_le_mul (p := 24) hx
  have e : (1 : ℚ) + 2 ^ (-((24 : ℕ) : ℤ)) ≤ 1001 / 1000 := by norm_num
  exact le_trans h (mul_le_mul_of_nonneg_left e hx)

theorem toDouble_le {x : ℚ} (hx : 0 ≤ x) : toDouble x ≤ x * (1001 / 1000) := by
  have h := roundTo_le_mul (p := 53) hx
  have e : (1 : ℚ) + 2 ^ (-((53 : ℕ) : ℤ)) ≤ 1001 / 1000 := by norm_num
  exact le_trans h (mul_le_mul_of_nonneg_left e hx)

theorem progressValue_bounds (N i : Nat) (hN : 0 < N) (hi : i < 2 * N) :
    50 ≤ progressValue (progressRatio N) i ∧ progressValue (progressRatio N) i ≤ 100 := by
  have hNq : (0 : ℚ) < N := by exact_mod_cast hN
  have hiq : (i : ℚ) ≤ 2 * N := by exact_mod_cast hi.le
  have hi0 : (0 : ℚ) ≤ i := by positivity
  have hq0 : (0 : ℚ) ≤ 25 / (N : ℚ) := by positivity
  have hd0 : 0 ≤ toDouble (25 / (N : ℚ)) := roundTo_nonneg 53 hq0
  have hd : toDouble (25 / (N : ℚ)) ≤ 25 / (N : ℚ) * (1001 / 1000) := toDouble_le hq0
  have hr0 : 0 ≤ progressRatio N := roundTo_nonneg 24 hd0
  have hr : progressRatio N ≤ 25 / (N : ℚ) * (1001 / 1000) * (1001 / 1000) :=
    le_trans (toFloat_le hd0) (mul_le_mul_of_nonneg_right hd (by norm_num))
  have hf0 : 0 ≤ toFloat (i : ℚ) := roundTo_nonneg 24 hi0
  have hf : toFloat (i : ℚ) ≤ 2 * N * (1001 / 1000) :=
    le_trans (toFloat_le hi0) (mul_le_mul_of_nonneg_right hiq (by norm_num))
  have hprod0 : 0 ≤ progressRatio N * toFloat (i : ℚ) := mul_nonneg hr0 hf0
  have hprod : progressRatio N * toFloat (i : ℚ)
      ≤ 25 / (N : ℚ) * (1001 / 1000) * (1001 / 1000) * (2 * N * (1001 / 1000)) :=
    mul_le_mul hr hf hf0 (by positivity)
  have hprod2 : progressRatio N * toFloat (i : ℚ) ≤ 50 * (1001 / 1000) ^ 3 := by
    have e : 25 / (N : ℚ) * (1001 / 1000) * (1001 / 1000) * (2 * N * (1001 / 1000))
        = 50 * (1001 / 1000) ^ 3 := by
      field_simp
      ring
    rw [e] at hprod
    exact hprod
  have hp0 : 0 ≤ toFloat (progressRatio N * toFloat (i : ℚ)) := roundTo_nonneg 24 hprod0
  have hp : toFloat (progressRatio N * toFloat (i : ℚ)) ≤ 50 * (1001 / 1000) ^ 4 := by
    have := toFloat_le hprod0
    nlinarith
  have hy1 : (50 : ℚ) ≤ 50 + toFloat (progressRatio N * toFloat (i : ℚ)) := by linarith
  have hy2 : 50 + toFloat (progressRatio N * toFloat (i : ℚ)) < 128 := by
    have : (50 : ℚ) * (1001 / 1000) ^ 4 < 51 := by norm_num
    linarith
  have hs1 := fifty_le_toFloat hy1 hy2
  have hs2 : toFloat (50 + toFloat (progressRatio N * toFloat (i : ℚ))) < 101 := by
    have h := toFloat_le (le_trans (by norm_num) hy1)
    have : (50 : ℚ) * (1001 / 1000) ^ 4 < 201 / 4 := by norm_num
    nlinarith
  unfold progressValue floatToInt
  rw [if_pos (le_trans (by norm_num) hs1)]
  constructor
  · exact Int.le_floor.mpr (by exact_mod_cast hs1)
  · have : ⌊toFloat (50 + toFloat (progressRatio N * toFloat (i : ℚ)))⌋ < 101 :=
      Int.floor_lt.mpr (by exact_mod_cast hs2)
    omega

/-- With two identifiers the emission at counter 0 is 50. -/
theorem progressValue_two_zero : progressValue (progressRatio 2) 0 = 50 := by
  have h1 : roundTo 53 (25 / ((2 : ℕ) : ℚ)) = (25 / 2 : ℚ) := by
    rw [roundTo_eq_of_bounds (3) (7036874417766400) (by norm_num) (by norm_num) (by norm_num) (by norm_num)]
    norm_num
  have h2 : roundTo 24 (25 / 2 : ℚ) = (25 / 2 : ℚ) := by
    rw [roundTo_eq_of_bounds (3) (13107200) (by norm_num) (by norm_num) (by norm_num) (by norm_num)]
    norm_num
  have h3 : roundTo 24 (((0 : ℕ) : ℚ)) = (0 : ℚ) := by
    rw [show (((0 : ℕ) : ℚ)) = (0 : ℚ) from by norm_num, roundTo_zero]
  have h4 : roundTo 24 ((25 / 2 : ℚ) * (0 : ℚ)) = (0 : ℚ) := by
    rw [show ((25 / 2 : ℚ) * (0 : ℚ)) = (0 : ℚ) from by norm_num, roundTo_zero]
  have h5 : roundTo 24 (50 + (0 : ℚ)) = (50 : ℚ) := by
    rw [roundTo_eq_of_bounds (5) (13107200) (by norm_num) (by norm_num) (by norm_num) (by norm_num)]
    norm_num
  unfold progressValue progressRatio toFloat toDouble
  rw [h1, h2, h3, h4, h5]
  norm_num [floatToInt]

/-- With two identifiers the emission at counter 1 is 62. -/
theorem progressValue_two_one : progressValue (progressRatio 2) 1 = 62 := by
  have h1 : roundTo 53 (25 / ((2 : ℕ) : ℚ)) = (25 / 2 : ℚ) := by
    rw [roundTo_eq_of_bounds (3) (7036874417766400) (by norm_num) (by norm_num) (by norm_num) (by norm_num)]
    norm_num
  have h2 : roundTo 24 (25 / 2 : ℚ) = (25 / 2 : ℚ) := by
    rw [roundTo_eq_of_bounds (3) (13107200) (by norm_num) (by norm_num) (by norm_num) (by norm_num)]
    norm_num
  have h3 : roundTo 24 (((1 : ℕ) : ℚ)) = (1 : ℚ) := by
    rw [roundTo_eq_of_bounds (0) (8388608) (by norm_num) (by norm_num) (by norm_num) (by norm_num)]
    norm_num
  have h4 : roundTo 24 ((25 / 2 : ℚ) * (1 : ℚ)) = (25 / 2 : ℚ) := by
    rw [roundTo_eq_of_bounds (3) (13107200) (by norm_num) (by norm_num) (by norm_num) (by norm_num)]
    norm_num
  have h5 : roundTo 24 (50 + (25 / 2 : ℚ)) = (125 / 2 : ℚ) := by
    rw [roundTo_eq_of_bounds (5) (16384000) (by norm_num) (by norm_num) (by norm_num) (by norm_num)]
    norm_num
  unfold progressValue progressRatio toFloat toDouble
  rw [h1, h2, h3, h4, h5]
  norm_num [floatToInt]

/-- With two identifiers the emission at counter 2 is 75. -/
theorem progressValue_two_two : progressValue (progressRatio 2) 2 = 75 := by
  have h1 : roundTo 53 (25 / ((2 : ℕ) : ℚ)) = (25 / 2 : ℚ) := by
    rw [roundTo_eq_of_bounds (3) (7036874417766400) (by norm_num) (by norm_num) (by norm_num) (by norm_num)]
    norm_num
  have h2 : roundTo 24 (25 / 2 : ℚ) = (25 / 2 : ℚ) := by
    rw [roundTo_eq_of_bounds (3) (13107200) (by norm_num) (by norm_num) (by norm_num) (by norm_num)]
    norm_num
  have h3 : roundTo 24 (((2 : ℕ) : ℚ)) = (2 : ℚ) := by
    rw [roundTo_eq_of_bounds (1) (8388608) (by norm_num) (by norm_num) (by norm_num) (by norm_num)]
    norm_num
  have h4 : roundTo 24 ((25 / 2 : ℚ) * (2 : ℚ)) = (25 : ℚ) := by
    rw [roundTo_eq_of_bounds (4) (13107200) (by norm_num) (by norm_num) (by norm_num) (by norm_num)]
    norm_num
  have h5 : roundTo 24 (50 + (25 : ℚ)) = (75 : ℚ) := by
    rw [roundTo_eq_of_bounds (6) (9830400) (by norm_num) (by norm_num) (by norm_num) (by norm_num)]
    norm_num
  unfold progressValue progressRatio toFloat toDouble
  rw [h1, h2, h3, h4, h5]
  norm_num [floatToInt]

/-- With two identifiers the emission at counter 3 is 87. -/
theorem progressValue_two_three : progressValue (progressRatio 2) 3 = 87 := by
  have h1 : roundTo 53 (25 / ((2 : ℕ) : ℚ)) = (25 / 2 : ℚ) := by
    rw [roundTo_eq_of_bounds (3) (7036874417766400) (by norm_num) (by norm_num) (by norm_num) (by norm_num)]
    norm_num
  have h2 : roundTo 24 (25 / 2 : ℚ) = (25 / 2 : ℚ) := by
    rw [roundTo_eq_of_bounds (3) (13107200) (by norm_num) (by norm_num) (by norm_num) (by norm_num)]
    norm_num
  have h3 : roundTo 24 (((3 : ℕ) : ℚ)) = (3 : ℚ) := by
    rw [roundTo_eq_of_bounds (1) (12582912) (by norm_num) (by norm_num) (by norm_num) (by norm_num)]
    norm_num
  have h4 : roundTo 24 ((25 / 2 : ℚ) * (3 : ℚ)) = (75 / 2 : ℚ) := by
    rw [roundTo_eq_of_bounds (5) (9830400) (by norm_num) (by norm_num) (by norm_num) (by norm_num)]
    norm_num
  have h5 : roundTo 24 (50 + (75 / 2 : ℚ)) = (175 / 2 : ℚ) := by
    rw [roundTo_eq_of_bounds (6) (11468800) (by norm_num) (by norm_num) (by norm_num) (by norm_num)]
    norm_num
  unfold progressValue progressRatio toFloat toDouble
  rw [h1, h2, h3, h4, h5]
  norm_num [floatToInt]

/-- Single precision rounding raises a value: with 132737 identifiers the emission at counter
254855 is 98, where `50 + 25 * 254855 / 132737` computed exactly is below 98. -/
theorem progressValue_rounded_up : progressValue (progressRatio 132737) 254855 = 98 := by
  have h1 : roundTo 53 (25 / ((132737 : ℕ) : ℚ)) = (6948606670977027 / 36893488147419103232 : ℚ) := by
    rw [roundTo_eq_of_bounds (-13) (6948606670977027) (by norm_num) (by norm_num) (by norm_num) (by norm_num)]
    norm_num
  have h2 : roundTo 24 (6948606670977027 / 36893488147419103232 : ℚ) = (12942789 / 68719476736 : ℚ) := by
    rw [roundTo_eq_of_bounds (-13) (12942789) (by norm_num) (by norm_num) (by norm_num) (by norm_num)]
    norm_num
  have h3 : roundTo 24 (((254855 : ℕ) : ℚ)) = (254855 : ℚ) := by
    rw [roundTo_eq_of_bounds (17) (16310720) (by norm_num) (by norm_num) (by norm_num) (by norm_num)]
    norm_num
  have h4 : roundTo 24 ((12942789 / 68719476736 : ℚ) * (254855 : ℚ)) = (12582911 / 262144 : ℚ) := by
    rw [roundTo_eq_of_bounds (5) (12582911) (by norm_num) (by norm_num) (by norm_num) (by norm_num)]
    norm_num
  have h5 : roundTo 24 (50 + (12582911 / 262144 : ℚ)) = (98 : ℚ) := by
    rw [roundTo_eq_of_tie_odd (6) (12845055) (by norm_num) (by norm_num) (by norm_num) (by decide)]
    norm_num
  unfold progressValue progressRatio toFloat toDouble
  rw [h1, h2, h3, h4, h5]
  norm_num [floatToInt]

/-- The bound 100 is reached inside the loop: with 2969750 identifiers the last emission of the
loop, at counter 5939499, is 100. -/
theorem progressValue_hundred : progressValue (progressRatio 2969750) 5939499 = 100 := by
  have h1 : roundTo 53 (25 / ((2969750 : ℕ) : ℚ)) = (2484619119280687 / 295147905179352825856 : ℚ) := by
    rw [roundTo_eq_of_bounds (-17) (4969238238561374) (by norm_num) (by norm_num) (by norm_num) (by norm_num)]
    norm_num
  have h2 : roundTo 24 (2484619119280687 / 295147905179352825856 : ℚ) = (1156991 / 137438953472 : ℚ) := by
    rw [roundTo_eq_of_bounds (-17) (9255928) (by norm_num) (by norm_num) (by norm_num) (by norm_num)]
    norm_num
  have h3 : roundTo 24 (((5939499 : ℕ) : ℚ)) = (5939499 : ℚ) := by
    rw [roundTo_eq_of_bounds (22) (11878998) (by norm_num) (by norm_num) (by norm_num) (by norm_num)]
    norm_num
  have h4 : roundTo 24 ((1156991 / 137438953472 : ℚ) * (5939499 : ℚ)) = (13107199 / 262144 : ℚ) := by
    rw [roundTo_eq_of_bounds (5) (13107199) (by norm_num) (by norm_num) (by norm_num) (by norm_num)]
    norm_num
  have h5 : roundTo 24 (50 + (13107199 / 262144 : ℚ)) = (100 : ℚ) := by
    rw [roundTo_eq_of_tie_odd (6) (13107199) (by norm_num) (by norm_num) (by norm_num) (by decide)]
    norm_num
  unfold progressValue progressRatio toFloat toDouble
  rw [h1, h2, h3, h4, h5]
  norm_num [floatToInt]

/-! ## The trace of a run -/

theorem query_trace_ok (d : ctkDICOMQueryPrivate) (env : Peer) (h : env.initNetwork = true) :
    (query d env).2
      = setupEvents d env
        ++ [.log .debug "Negotiating Association",
            .progressText "Negatiating Association",
            .progressInt 20,
            .negotiateAssociation]
        ++ (topQuery d).2
        ++ [.progressInt 30]
        ++ (findContext env).2
        ++ (if (findContext env).1 = 0
            then [.log .error "Failed to find acceptable presentation context",
                  .progressText "Failed to find acceptable presentation context"]
            else [.log .info "Found useful presentation context",
                  .progressText "Found useful presentation context"])
        ++ [.progressInt 40,
            .sendFINDRequest (findContext env).1 (topQuery d).1]
        ++ (if (topAnswer d env).1
            then [.log .debug "Find succeded", .progressText "Find succeded"]
            else [.log .error "Find failed", .progressText "Find failed"])
        ++ [.progressInt 50]
        ++ (afterTop d env).2
        ++ (childStage d env).2
        ++ [.closeAssociation .DUL_PEERREQUESTEDRELEASE,
            .progressInt 100] := by
  unfold query
  simp [h]

theorem query_trace_failed (d : ctkDICOMQueryPrivate) (env : Peer)
    (h : env.initNetwork = false) :
    (query d env).2
      = setupEvents d env
        ++ [.log .error "Error initializing the network",
            .progressText "Error initializing the network",
            .progressInt 100] := by
  unfold query
  simp [h]

theorem query_uids_ok (d : ctkDICOMQueryPrivate) (env : Peer) (h : env.initNetwork = true) :
    studyInstanceUIDQueried (query d env).1 = (records (topAnswer d env).2).map identifier := by
  unfold query studyInstanceUIDQueried
  simp [h, afterTop_uids]

theorem query_uids_failed (d : ctkDICOMQueryPrivate) (env : Peer)
    (h : env.initNetwork = false) :
    studyInstanceUIDQueried (query d env).1 = [] := by
  unfold query studyInstanceUIDQueried
  simp [h]

theorem findRequests_query (d : ctkDICOMQueryPrivate) (env : Peer)
    (h : env.initNetwork = true) :
    findRequests (query d env).2
      = ((findContext env).1, (topQuery d).1)
        :: (studyInstanceUIDQueried (query d env).1).map (fun u => (0, childDataset d u)) := by
  obtain ⟨msgs, hm⟩ := topQuery_events d
  rw [query_uids_ok d env h, query_trace_ok d env h, hm]
  simp only [findRequests_append, findRequests_setupEvents, findRequests_logs,
    findRequests_findContext, afterTop_events, findRequests_inserts, childStage,
    childLoop_findRequests, afterTop_uids]
  split_ifs <;> simp [findRequests, findRequestOf, childDataset]


theorem childDataset_uid {u : String} (hu : ∀ c ∈ u.data, isLatin1Text c)
    (d : ctkDICOMQueryPrivate) :
    (childDataset d u).findElement DCM_StudyInstanceUID = some (toAscii u) := by
  unfold childDataset
  rw [findElement_put_self, cStr_toAscii hu]

theorem childDataset_level (d : ctkDICOMQueryPrivate) (u : String) :
    (childDataset d u).findElement DCM_QueryRetrieveLevel = some (toAscii "SERIES") := by
  unfold childDataset childQuery
  rw [findElement_put_ne _ _ (by decide), findElement_put_self]
  decide

theorem getLast_append_one (l : List Event) (a : Event) :
    (l ++ [a]).getLast? = some a := by
  simp

theorem getLast_append_two (l : List Event) (a b : Event) :
    (l ++ [a, b]).getLast? = some b := by
  simp [List.getLast?_append]

theorem getLast_append_three (l : List Event) (a b c : Event) :
    (l ++ [a, b, c]).getLast? = some c := by
  simp [List.getLast?_append]

theorem progressInts_childStage (d : ctkDICOMQueryPrivate) (env : Peer) :
    progressInts (childStage d env).2
      = (List.range (2 * (afterTop d env).1.StudyInstanceUIDList.length)).map
          (progressValue (progressRatio (afterTop d env).1.StudyInstanceUIDList.length)) := by
  unfold childStage
  simp only []
  rw [childLoop_progressInts, List.range_eq_range']

theorem progressInts_two_studies :
    progressInts (childStage (sampleQuery []) peerTwoStudies).2 = [50, 62, 75, 87] := by
  have hlen : (afterTop (sampleQuery []) peerTwoStudies).1.StudyInstanceUIDList.length = 2 := by
    decide
  rw [progressInts_childStage, hlen]
  simp only [List.range, List.range.loop, List.map_cons, List.map_nil, progressValue_two_zero,
    progressValue_two_one, progressValue_two_two, progressValue_two_three]

theorem query_uids_afterTop (d : ctkDICOMQueryPrivate) (env : Peer)
    (h : env.initNetwork = true) :
    studyInstanceUIDQueried (query d env).1 = (afterTop d env).1.StudyInstanceUIDList := by
  rw [query_uids_ok d env h, afterTop_uids]

theorem identifier_of_some {r : DcmDataset} {v : OFString}
    (h : r.findElement DCM_StudyInstanceUID = some v) : identifier r = fromAscii v := by
  simp [identifier, findAndGetOFString, h]

theorem identifier_of_none {r : DcmDataset}
    (h : r.findElement DCM_StudyInstanceUID = none) : identifier r = "" := by
  simp [identifier, findAndGetOFString, h]
  decide

theorem isLatin1Text_of_ascii {c : Char} (h : isAsciiText c) : isLatin1Text c :=
  ⟨h.1, Nat.lt_trans h.2 (by decide)⟩

theorem wildcard_text {v : String} (h : ∀ c ∈ v.data, isLatin1Text c) :
    ∀ c ∈ ("*" ++ v ++ "*").data, isLatin1Text c := by
  intro c hc
  simp only [String.data_append, List.mem_append] at hc
  have hstar : ∀ c ∈ ("*" : String).data, isLatin1Text c := by
    intro c hc
    have : c = Char.ofNat 42 := by simpa using hc
    subst this
    exact ⟨by decide, by decide⟩
  rcases hc with (hc | hc) | hc
  · exact hstar c hc
  · exact h c hc
  · exact hstar c hc

theorem head_findRequests_query (d : ctkDICOMQueryPrivate) (env : Peer)
    (h : env.initNetwork = true) :
    (findRequests (query d env).2).head? = some ((findContext env).1, (topQuery d).1) := by
  rw [findRequests_query d env h]
  rfl

theorem topQuery_find_string (d : ctkDICOMQueryPrivate) {K : String} {tag : DcmTagKey}
    {v : String} (hK : (K, tag) ∈ stringFilters)
    (hv : d.Filters.lookup K = some (QVariant.string v)) :
    (topQuery d).1.findElement tag = some (cStr (toAscii ("*" ++ v ++ "*"))) := by
  have hmem : K ∈ d.Filters.keys := mem_keys_of_lookup hv
  have hval : d.Filters.value K = QVariant.string v := value_of_lookup hv
  unfold topQuery applyFilters
  simp only [stringFilters, List.mem_cons, Prod.mk.injEq, List.mem_nil_iff, or_false] at hK
  rcases hK with ⟨rfl, rfl⟩ | ⟨rfl, rfl⟩ | ⟨rfl, rfl⟩ | ⟨rfl, rfl⟩
  · rw [foldl_filterStep_find d.Filters _ _ _ (filterStep_find_name d.Filters), if_pos hmem, hval]
    rfl
  · rw [foldl_filterStep_find d.Filters _ _ _ (filterStep_find_study d.Filters), if_pos hmem, hval]
    rfl
  · rw [foldl_filterStep_find d.Filters _ _ _ (filterStep_find_series d.Filters), if_pos hmem, hval]
    rfl
  · rw [foldl_filterStep_find d.Filters _ _ _ (filterStep_find_id d.Filters), if_pos hmem, hval]
    rfl

theorem topQuery_find_modalities (d : ctkDICOMQueryPrivate) {ms : List String}
    (hm : d.Filters.lookup "Modalities" = some (QVariant.stringList ms)) :
    (topQuery d).1.findElement DCM_ModalitiesInStudy
      = some (cStr (toAscii (String.intercalate "\\" ms))) := by
  have hmem : "Modalities" ∈ d.Filters.keys := mem_keys_of_lookup hm
  have hval : d.Filters.value "Modalities" = QVariant.stringList ms := value_of_lookup hm
  unfold topQuery applyFilters
  rw [foldl_filterStep_find d.Filters _ _ _ (filterStep_find_modalities d.Filters), if_pos hmem,
    hval, ← modalitySearch_eq]
  rfl

theorem mem_foldl_modality (sep : String) (ms : List String) (acc : String) (c : Char)
    (hc : c ∈ (ms.foldl (fun acc modality => acc ++ (modality ++ sep)) acc).data) :
    c ∈ acc.data ∨ c ∈ sep.data ∨ ∃ m ∈ ms, c ∈ m.data := by
  induction ms generalizing acc with
  | nil => exact Or.inl hc
  | cons a rest ih =>
    rw [List.foldl_cons] at hc
    rcases ih _ hc with h | h | ⟨m, hm, h⟩
    · simp only [String.data_append, List.mem_append] at h
      rcases h with h | h | h
      · exact Or.inl h
      · exact Or.inr (Or.inr ⟨a, by simp, h⟩)
      · exact Or.inr (Or.inl h)
    · exact Or.inr (Or.inl h)
    · exact Or.inr (Or.inr ⟨m, by simp [hm], h⟩)

theorem modalitySearch_text {ms : List String} (h : ∀ m ∈ ms, ∀ c ∈ m.data, isLatin1Text c) :
    ∀ c ∈ (modalitySearch ms).data, isLatin1Text c := by
  intro c hc
  unfold modalitySearch chop at hc
  rcases mem_foldl_modality _ _ _ _ (List.mem_of_mem_take hc) with h1 | h1 | ⟨m, hm, h1⟩
  · simp at h1
  · have : c = Char.ofNat 92 := by simpa using h1
    subst this
    exact ⟨by decide, by decide⟩
  · exact h m hm c h1

theorem topQuery_indep (d : ctkDICOMQueryPrivate) (q : DcmDataset) (l : List String) :
    topQuery { d with query := q, StudyInstanceUIDList := l } = topQuery d := by
  unfold topQuery
  exact congrArg _ (resetQuery_const _ _)

theorem topAnswer_indep (d : ctkDICOMQueryPrivate) (env : Peer) (q : DcmDataset)
    (l : List String) :
    topAnswer { d with query := q, StudyInstanceUIDList := l } env = topAnswer d env := by
  unfold topAnswer
  rw [topQuery_indep]

theorem childStage_indep (d : ctkDICOMQueryPrivate) (env : Peer) (q : DcmDataset)
    (l : List String) :
    childStage { d with query := q, StudyInstanceUIDList := l } env = childStage d env := by
  unfold childStage childQuery
  simp only [afterTop_uids, topAnswer_indep, topQuery_indep]

theorem query_trace_indep (d : ctkDICOMQueryPrivate) (env : Peer) (q : DcmDataset)
    (l : List String) :
    (query { d with query := q, StudyInstanceUIDList := l } env).2 = (query d env).2 := by
  have hs : setupEvents { d with query := q, StudyInstanceUIDList := l } env
      = setupEvents d env := rfl
  cases h : env.initNetwork with
  | false => rw [query_trace_failed _ env h, query_trace_failed _ env h, hs]
  | true =>
    rw [query_trace_ok _ env h, query_trace_ok _ env h, hs, afterTop_events, afterTop_events,
      childStage_indep, topAnswer_indep, topQuery_indep]

theorem query_state_shape (d : ctkDICOMQueryPrivate) (env : Peer) :
    ∃ q l, (query d env).1 = { d with query := q, StudyInstanceUIDList := l } := by
  unfold query
  cases h : env.initNetwork with
  | false => exact ⟨d.query, [], by simp⟩
  | true =>
    refine ⟨(childStage d env).1, (afterTop d env).1.StudyInstanceUIDList, ?_⟩
    simp [afterTop, topLoop_state]

theorem query_twice (d : ctkDICOMQueryPrivate) (env : Peer) :
    (query (query d env).1 env).2 = (query d env).2 := by
  obtain ⟨q, l, h⟩ := query_state_shape d env
  rw [h]
  exact query_trace_indep d env q l

theorem answers_children (env : Peer) (q : DcmDataset) (uids : List String) (sent : Nat) :
    (List.enumFrom sent
        (uids.map (fun u => ((0 : Nat), q.putAndInsertString DCM_StudyInstanceUID (toAscii u))))).map
        (fun r => env.sendFINDRequest r.1 r.2.1 r.2.2)
      = childAnswersFrom env q uids sent := by
  induction uids generalizing sent with
  | nil => rfl
  | cons u rest ih => simp [List.enumFrom, childAnswersFrom, ih]

theorem answers_query (d : ctkDICOMQueryPrivate) (env : Peer) (h : env.initNetwork = true) :
    answers env (query d env).2 = topAnswer d env :: childAnswers d env := by
  unfold answers
  rw [findRequests_query d env h, query_uids_afterTop d env h]
  simp only [List.enumFrom, List.map_cons]
  unfold childDataset
  rw [answers_children]
  rfl

/-! ## The claims -/

/-- C1: when the network initialisation succeeds, the identifiers collected from the N
records of the STUDY level answer are, in response order, the N values read from them; the
find requests of the run are the STUDY level request followed by exactly one SERIES level
request per identifier, in list order, whatever the answers of the peer to them; the request
for identifier `u` carries `StudyInstanceUID = u` and `QueryRetrieveLevel = SERIES`. -/
theorem C1_child_requests (d : ctkDICOMQueryPrivate) (env : Peer)
    (h : env.initNetwork = true) :
    studyInstanceUIDQueried (query d env).1 = (records (topAnswer d env).2).map identifier
    ∧ findRequests (query d env).2
        = ((findContext env).1, (topQuery d).1)
          :: (studyInstanceUIDQueried (query d env).1).map (fun u => (0, childDataset d u))
    ∧ (topQuery d).1.findElement DCM_QueryRetrieveLevel = some (toAscii "STUDY")
    ∧ ∀ u ∈ studyInstanceUIDQueried (query d env).1,
        (childDataset d u).findElement DCM_StudyInstanceUID = some (toAscii u)
        ∧ fromAscii (toAscii u) = u
        ∧ (childDataset d u).findElement DCM_QueryRetrieveLevel = some (toAscii "SERIES") := by
  refine ⟨query_uids_ok d env h, findRequests_query d env h, topQuery_level d, ?_⟩
  intro u hu
  rw [query_uids_ok d env h] at hu
  obtain ⟨r, _, rfl⟩ := List.mem_map.mp hu
  have hl : ∀ c ∈ (identifier r).data, isLatin1Text c := fromAscii_latin1 _
  exact ⟨childDataset_uid hl d, fromAscii_toAscii hl, childDataset_level d _⟩

/-- C1 at a run with two studies whose first SERIES level request fails: both SERIES level
requests are sent. -/
theorem C1_child_requests_witness :
    peerTwoStudies.initNetwork = true
    ∧ studyInstanceUIDQueried (query (sampleQuery [("ID", .string "12")]) peerTwoStudies).1
        = ["1.2.3", "1.2.4"]
    ∧ (findRequests (query (sampleQuery [("ID", .string "12")]) peerTwoStudies).2).map Prod.fst
        = [3, 0, 0]
    ∧ (childDataset (sampleQuery [("ID", .string "12")]) "1.2.4").findElement
          DCM_StudyInstanceUID
        = some (toAscii "1.2.4") := by
  have h := C1_child_requests (sampleQuery [("ID", .string "12")]) peerTwoStudies rfl
  refine ⟨rfl, ?_, ?_, ?_⟩
  · rw [h.1]; decide
  · rw [h.2.1, h.1]; decide
  · exact (h.2.2.2 "1.2.4" (by rw [h.1]; decide)).1

/-- C2, amended: when the network initialisation succeeds, the answers to the find requests
of the run are the STUDY level answer followed by the SERIES level answers, and the datasets
passed to `database.insert` are the records of the STUDY level answer, in response order,
followed, for each identifier in list order, by the records of the answer to its SERIES
level request when that answer reports success, and by nothing when it reports failure. -/
theorem C2_inserted_records (d : ctkDICOMQueryPrivate) (env : Peer)
    (h : env.initNetwork = true) :
    answers env (query d env).2 = topAnswer d env :: childAnswers d env
    ∧ inserted (query d env).2
      = records (topAnswer d env).2
        ++ ((childAnswers d env).map (fun a => if a.1 then records a.2 else [])).flatten := by
  refine ⟨answers_query d env h, ?_⟩
  obtain ⟨msgs, hm⟩ := topQuery_events d
  rw [query_trace_ok d env h, hm]
  simp only [inserted_append, inserted_setupEvents, inserted_logs, inserted_findContext,
    afterTop_events, inserted_inserts, childStage, childLoop_inserted, childAnswers]
  split_ifs <;> simp [inserted, insertOf]

/-- C2, amended, at a run whose first SERIES level answer fails with one record. -/
theorem C2_inserted_records_witness :
    peerTwoStudies.initNetwork = true
    ∧ (answers peerTwoStudies (query (sampleQuery []) peerTwoStudies).2).map Prod.fst
        = [true, false, true]
    ∧ inserted (query (sampleQuery []) peerTwoStudies).2
        = [studyRecord "1.2.3", studyRecord "1.2.4", seriesRecord "1.2.4" "1.2.4.1"] := by
  have h := C2_inserted_records (sampleQuery []) peerTwoStudies rfl
  refine ⟨rfl, ?_, ?_⟩
  · rw [h.1]
    decide
  · rw [h.2]
    decide

/-- C2 as stated fails: the record returned by a SERIES level request that reports failure
is not inserted, so the inserted datasets are not the records of all the answers. -/
theorem C2_counterexample :
    peerTwoStudies.initNetwork = true
    ∧ (childAnswers (sampleQuery []) peerTwoStudies).map Prod.fst = [false, true]
    ∧ inserted (query (sampleQuery []) peerTwoStudies).2
        ≠ records (topAnswer (sampleQuery []) peerTwoStudies).2
          ++ ((childAnswers (sampleQuery []) peerTwoStudies).map (fun a => records a.2)).flatten
    ∧ inserted (query (sampleQuery []) peerTwoStudies).2
        ≠ ((answers peerTwoStudies (query (sampleQuery []) peerTwoStudies).2).map
            (fun a => records a.2)).flatten := by
  decide

/-- C3: the last event of every run, and so the last emission of the `progress` signal, is
the numeric progress value 100, whatever the peer answers. -/
theorem C3_final_progress (d : ctkDICOMQueryPrivate) (env : Peer) :
    (query d env).2.getLast? = some (Event.progressInt 100)
    ∧ (progressTrace (query d env).2).getLast? = some (Event.progressInt 100) := by
  cases h : env.initNetwork with
  | false =>
    rw [query_trace_failed d env h]
    exact ⟨getLast_append_three _ _ _ _, by
      rw [progressTrace, List.filter_append]
      exact getLast_append_two _ _ _⟩
  | true =>
    rw [query_trace_ok d env h]
    exact ⟨getLast_append_two _ _ _, by
      rw [progressTrace, List.filter_append]
      exact getLast_append_one _ _⟩

/-- C4: when `initNetwork` fails the trace is the set-up ending with the `initNetwork` call,
then the failure text (logged and emitted) and progress 100; the numeric progress values are
0, 10 and 100, and the run neither negotiates, nor looks up a presentation context, nor sends
a find request, nor inserts a record, nor closes the association. -/
theorem C4_init_failure (d : ctkDICOMQueryPrivate) (env : Peer)
    (h : env.initNetwork = false) :
    (query d env).2
      = setupEvents d env
        ++ [.log .error "Error initializing the network",
            .progressText "Error initializing the network",
            .progressInt 100]
    ∧ (setupEvents d env).getLast? = some Event.initNetwork
    ∧ progressInts (query d env).2 = [0, 10, 100]
    ∧ (query d env).2.filter usesSession = []
    ∧ findRequests (query d env).2 = []
    ∧ inserted (query d env).2 = []
    ∧ (query d env).2.filter isClose = [] := by
  rw [query_trace_failed d env h]
  refine ⟨rfl, getLast_setupEvents d env, ?_, ?_, ?_, ?_, ?_⟩
  · rw [progressInts_append, progressInts_setupEvents]
    rfl
  · rw [List.filter_append, filter_usesSession_setupEvents]
    rfl
  · rw [findRequests_append, findRequests_setupEvents]
    rfl
  · rw [inserted_append, inserted_setupEvents]
    rfl
  · rw [List.filter_append, filter_isClose_setupEvents]
    rfl

/-- C4 at a peer for which the initialisation fails. -/
theorem C4_init_failure_witness :
    peerInitFails.initNetwork = false
    ∧ progressInts (query (sampleQuery []) peerInitFails).2 = [0, 10, 100]
    ∧ (query (sampleQuery []) peerInitFails).2.filter usesSession = [] :=
  ⟨rfl, (C4_init_failure (sampleQuery []) peerInitFails rfl).2.2.1,
    (C4_init_failure (sampleQuery []) peerInitFails rfl).2.2.2.1⟩

/-- C5: when the network initialisation succeeds the trace ends with one call of
`closeAssociation(DUL_PEERREQUESTEDRELEASE)` followed by progress 100; no call of
`closeAssociation` and every find request of the run come before it. -/
theorem C5_close_once (d : ctkDICOMQueryPrivate) (env : Peer) (h : env.initNetwork = true) :
    ((query d env).2.filter isClose).length = 1
    ∧ ∃ pre, (query d env).2
          = pre ++ [.closeAssociation .DUL_PEERREQUESTEDRELEASE, .progressInt 100]
        ∧ pre.filter isClose = []
        ∧ findRequests pre = findRequests (query d env).2 := by
  obtain ⟨msgs, hm⟩ := topQuery_events d
  have hpre : List.filter isClose (setupEvents d env
        ++ [.log .debug "Negotiating Association",
            .progressText "Negatiating Association",
            .progressInt 20,
            .negotiateAssociation]
        ++ (topQuery d).2
        ++ [.progressInt 30]
        ++ (findContext env).2
        ++ (if (findContext env).1 = 0
            then [.log .error "Failed to find acceptable presentation context",
                  .progressText "Failed to find acceptable presentation context"]
            else [.log .info "Found useful presentation context",
                  .progressText "Found useful presentation context"])
        ++ [.progressInt 40,
            .sendFINDRequest (findContext env).1 (topQuery d).1]
        ++ (if (topAnswer d env).1
            then [.log .debug "Find succeded", .progressText "Find succeded"]
            else [.log .error "Find failed", .progressText "Find failed"])
        ++ [.progressInt 50]
        ++ (afterTop d env).2
        ++ (childStage d env).2) = [] := by
    rw [hm]
    simp only [List.filter_append, filter_isClose_setupEvents, filter_isClose_logs,
      filter_isClose_findContext, afterTop_events, filter_isClose_inserts, childStage,
      childLoop_filter_isClose]
    split_ifs <;> simp [isClose]
  rw [query_trace_ok d env h]
  refine ⟨?_, _, rfl, hpre, ?_⟩
  · rw [List.filter_append, hpre]
    simp [isClose]
  · rw [findRequests_append]
    simp [findRequests, findRequestOf]

/-- C5 at a run with a failing SERIES level request. -/
theorem C5_close_once_witness :
    peerTwoStudies.initNetwork = true
    ∧ ((query (sampleQuery []) peerTwoStudies).2.filter isClose).length = 1 :=
  ⟨rfl, (C5_close_once (sampleQuery []) peerTwoStudies rfl).1⟩


/-- C6, amended: the counter of the SERIES level loop advances at both emissions of an
iteration, so with N identifiers the numeric progress values of the loop are, in order, the
values of `50 + (25/N)*i` in single precision, converted to `int`, for `i = 0, ..., 2 * N - 1`;
each lies in the range 50 to 100 inclusive.  They are emitted between the STUDY level stage
and the call of `closeAssociation`. -/
theorem C6_child_progress (d : ctkDICOMQueryPrivate) (env : Peer)
    (h : env.initNetwork = true) :
    (∃ pre, (query d env).2
        = pre ++ (childStage d env).2
          ++ [.closeAssociation .DUL_PEERREQUESTEDRELEASE, .progressInt 100])
    ∧ progressInts (childStage d env).2
        = (List.range (2 * (studyInstanceUIDQueried (query d env).1).length)).map
            (progressValue (progressRatio (studyInstanceUIDQueried (query d env).1).length))
    ∧ ∀ v ∈ progressInts (childStage d env).2, 50 ≤ v ∧ v ≤ 100 := by
  refine ⟨⟨_, query_trace_ok d env h⟩, ?_, ?_⟩
  · rw [query_uids_afterTop d env h]
    exact progressInts_childStage d env
  · intro v hv
    rw [progressInts_childStage] at hv
    obtain ⟨j, hj, rfl⟩ := List.mem_map.mp hv
    rw [List.mem_range] at hj
    exact progressValue_bounds _ j (by omega) hj

/-- C6, amended, at a run with two identifiers: the values are 50, 62, 75 and 87. -/
theorem C6_child_progress_witness :
    peerTwoStudies.initNetwork = true
    ∧ progressInts (childStage (sampleQuery []) peerTwoStudies).2 = [50, 62, 75, 87]
    ∧ ∀ v ∈ progressInts (childStage (sampleQuery []) peerTwoStudies).2, 50 ≤ v ∧ v ≤ 100 := by
  have h := C6_child_progress (sampleQuery []) peerTwoStudies rfl
  have hlen : (studyInstanceUIDQueried (query (sampleQuery []) peerTwoStudies).1).length = 2 := by
    decide
  refine ⟨rfl, ?_, h.2.2⟩
  rw [h.2.1, hlen]
  simp only [List.range, List.range.loop, List.map_cons, List.map_nil, progressValue_two_zero,
    progressValue_two_one, progressValue_two_two, progressValue_two_three]

/-- C6 as stated fails: with two identifiers the emission after the second SERIES level
request is 87, above 75.  The values of the loop are not below 100 either: with 2969750
identifiers the last of them is 100. -/
theorem C6_counterexample :
    (studyInstanceUIDQueried (query (sampleQuery []) peerTwoStudies).1).length = 2
    ∧ progressInts (childStage (sampleQuery []) peerTwoStudies).2 = [50, 62, 75, 87]
    ∧ ¬ (∀ v ∈ progressInts (childStage (sampleQuery []) peerTwoStudies).2,
          50 ≤ v ∧ v ≤ 75)
    ∧ 5939499 < 2 * 2969750
    ∧ progressValue (progressRatio 2969750) 5939499 = 100 := by
  refine ⟨by decide, progressInts_two_studies, ?_, by decide, progressValue_hundred⟩
  rw [progressInts_two_studies]
  decide

/-- C7, amended: after a run the list of `studyInstanceUIDQueried` has one entry for every
record of the STUDY level answer, in response order and with duplicates kept: the study
instance UID of the record when it has one, the empty string when it has none.  Responses
without a dataset contribute nothing, and the list is empty when `initNetwork` fails. -/
theorem C7_parent_identifiers (d : ctkDICOMQueryPrivate) (env : Peer) :
    studyInstanceUIDQueried (query d env).1
      = (if env.initNetwork then (records (topAnswer d env).2).map identifier else [])
    ∧ (∀ (r : DcmDataset) (v : OFString),
        r.findElement DCM_StudyInstanceUID = some v → identifier r = fromAscii v)
    ∧ (∀ r : DcmDataset, r.findElement DCM_StudyInstanceUID = none → identifier r = "") := by
  refine ⟨?_, fun r v h => identifier_of_some h, fun r h => identifier_of_none h⟩
  cases h : env.initNetwork with
  | false => simpa using query_uids_failed d env h
  | true => simpa using query_uids_ok d env h

/-- C7, amended, at a record without study instance UID and at a record with one. -/
theorem C7_parent_identifiers_witness :
    recordWithoutUID.findElement DCM_StudyInstanceUID = none
    ∧ identifier recordWithoutUID = ""
    ∧ (studyRecord "1.2.3").findElement DCM_StudyInstanceUID = some (toAscii "1.2.3")
    ∧ identifier (studyRecord "1.2.3") = fromAscii (toAscii "1.2.3") :=
  ⟨by decide,
   (C7_parent_identifiers (sampleQuery []) peerWithoutUID).2.2 recordWithoutUID (by decide),
   by decide,
   (C7_parent_identifiers (sampleQuery []) peerWithoutUID).2.1 (studyRecord "1.2.3")
     (toAscii "1.2.3") (by decide)⟩

/-- C7 as stated fails: a record without study instance UID contributes the empty string
to the list. -/
theorem C7_counterexample :
    records (topAnswer (sampleQuery []) peerWithoutUID).2 = [recordWithoutUID]
    ∧ recordWithoutUID.findElement DCM_StudyInstanceUID = none
    ∧ studyInstanceUIDQueried (query (sampleQuery []) peerWithoutUID).1 = [""]
    ∧ studyInstanceUIDQueried (query (sampleQuery []) peerWithoutUID).1
        ≠ (records (topAnswer (sampleQuery []) peerWithoutUID).2).filterMap
            (fun r => (r.findElement DCM_StudyInstanceUID).map fromAscii) := by
  decide


/-- C8, amended: when the network initialisation succeeds and the filters map a string
filter key (Name, Study, Series, ID) to a string `v` of ASCII characters other than NUL, `v`
possibly empty, the dataset of the STUDY level request holds `*v*` in the attribute of the
key (PatientsName, StudyDescription, SeriesDescription, PatientID). -/
theorem C8_string_filters (d : ctkDICOMQueryPrivate) (env : Peer) (K : String)
    (tag : DcmTagKey) (v : String)
    (h : env.initNetwork = true)
    (hK : (K, tag) ∈ stringFilters)
    (hv : d.Filters.lookup K = some (QVariant.string v))
    (hascii : ∀ c ∈ v.data, isAsciiText c) :
    (findRequests (query d env).2).head? = some ((findContext env).1, (topQuery d).1)
    ∧ (topQuery d).1.findElement tag = some (toAscii ("*" ++ v ++ "*"))
    ∧ fromAscii (toAscii ("*" ++ v ++ "*")) = "*" ++ v ++ "*" := by
  have htext : ∀ c ∈ ("*" ++ v ++ "*").data, isLatin1Text c :=
    wildcard_text (fun c hc => isLatin1Text_of_ascii (hascii c hc))
  refine ⟨head_findRequests_query d env h, ?_, fromAscii_toAscii htext⟩
  rw [topQuery_find_string d hK hv, cStr_toAscii htext]

/-- C8, amended, at the filter `ID = ""`: the patient ID of the request is `**`. -/
theorem C8_string_filters_witness :
    peerTwoStudies.initNetwork = true
    ∧ ("ID", DCM_PatientID) ∈ stringFilters
    ∧ (sampleQuery [("ID", .string "")]).Filters.lookup "ID" = some (QVariant.string "")
    ∧ (topQuery (sampleQuery [("ID", .string "")])).1.findElement DCM_PatientID
        = some (toAscii ("*" ++ "" ++ "*")) :=
  ⟨rfl, by decide, by decide,
   (C8_string_filters (sampleQuery [("ID", .string "")]) peerTwoStudies "ID" DCM_PatientID ""
      rfl (by decide) (by decide) (by simp)).2.1⟩

/-- C8 as stated fails: an ASCII value with a NUL character is cut at the NUL, the closing
wildcard included. -/
theorem C8_counterexample :
    (∀ c ∈ ("a\x00b" : String).data, c.toNat < 128)
    ∧ (sampleQuery [("Name", .string "a\x00b")]).Filters.lookup "Name"
        = some (QVariant.string "a\x00b")
    ∧ (findRequests (query (sampleQuery [("Name", .string "a\x00b")]) peerTwoStudies).2).head?.map
          (fun r => r.2.findElement DCM_PatientsName)
        = some (some (toAscii "*a"))
    ∧ (topQuery (sampleQuery [("Name", .string "a\x00b")])).1.findElement DCM_PatientsName
        ≠ some (toAscii ("*" ++ "a\x00b" ++ "*"))
    ∧ ((topQuery (sampleQuery [("Name", .string "a\x00b")])).1.findElement DCM_PatientsName).map
          fromAscii
        ≠ some ("*" ++ "a\x00b" ++ "*") := by
  decide

/-- C9, amended: the string built from a list of modalities is the list joined with one
backslash between consecutive elements and none after the last, the empty string for the
empty list; when the network initialisation succeeds and the characters of the modalities
have a Latin-1 code other than NUL, this string is the value of ModalitiesInStudy in the
dataset of the STUDY level request. -/
theorem C9_modalities (d : ctkDICOMQueryPrivate) (env : Peer) (ms : List String)
    (h : env.initNetwork = true)
    (hm : d.Filters.lookup "Modalities" = some (QVariant.stringList ms))
    (htext : ∀ m ∈ ms, ∀ c ∈ m.data, isLatin1Text c) :
    modalitySearch ms = String.intercalate "\\" ms
    ∧ (findRequests (query d env).2).head? = some ((findContext env).1, (topQuery d).1)
    ∧ (topQuery d).1.findElement DCM_ModalitiesInStudy
        = some (toAscii (String.intercalate "\\" ms))
    ∧ fromAscii (toAscii (String.intercalate "\\" ms)) = String.intercalate "\\" ms := by
  have hjoin : ∀ c ∈ (String.intercalate "\\" ms).data, isLatin1Text c := by
    rw [← modalitySearch_eq]
    exact modalitySearch_text htext
  refine ⟨modalitySearch_eq ms, head_findRequests_query d env h, ?_, fromAscii_toAscii hjoin⟩
  rw [topQuery_find_modalities d hm, cStr_toAscii hjoin]

/-- C9, amended, at three modalities and at no modality. -/
theorem C9_modalities_witness :
    peerTwoStudies.initNetwork = true
    ∧ (topQuery (sampleQuery [("Modalities", .stringList ["CT", "MR", "US"])])).1.findElement
          DCM_ModalitiesInStudy
        = some (toAscii "CT\\MR\\US")
    ∧ (topQuery (sampleQuery [("Modalities", .stringList [])])).1.findElement
          DCM_ModalitiesInStudy
        = some (toAscii "") :=
  ⟨rfl,
   (C9_modalities (sampleQuery [("Modalities", .stringList ["CT", "MR", "US"])]) peerTwoStudies
      ["CT", "MR", "US"] rfl (by decide) (by decide)).2.2.1,
   (C9_modalities (sampleQuery [("Modalities", .stringList [])]) peerTwoStudies
      [] rfl (by decide) (by simp)).2.2.1⟩

/-- C9 as stated fails: a modality with a NUL character cuts the value at the NUL, and a
character without Latin-1 code is written as a question mark. -/
theorem C9_counterexample :
    ((topQuery (sampleQuery [("Modalities", .stringList ["C\x00T", "MR"])])).1.findElement
          DCM_ModalitiesInStudy = some (toAscii "C")
      ∧ ((topQuery (sampleQuery [("Modalities", .stringList ["C\x00T", "MR"])])).1.findElement
          DCM_ModalitiesInStudy).map fromAscii
        ≠ some (String.intercalate "\\" ["C\x00T", "MR"]))
    ∧ ((topQuery (sampleQuery [("Modalities", .stringList ["Ω"])])).1.findElement
          DCM_ModalitiesInStudy = some (toAscii "?")
      ∧ ((topQuery (sampleQuery [("Modalities", .stringList ["Ω"])])).1.findElement
          DCM_ModalitiesInStudy).map fromAscii
        ≠ some (String.intercalate "\\" ["Ω"])) := by
  decide


/-- C10: a second run of `query` on the same object against a peer with the same behaviour
has the trace of the first run, hence the same inserted records, the same find requests
with the same datasets and the same progress emissions; the trace of a run does not depend
on the query dataset and the UID list the object holds when the run starts. -/
theorem C10_repeatable (d : ctkDICOMQueryPrivate) (env : Peer) :
    (query (query d env).1 env).2 = (query d env).2
    ∧ inserted (query (query d env).1 env).2 = inserted (query d env).2
    ∧ findRequests (query (query d env).1 env).2 = findRequests (query d env).2
    ∧ progressTrace (query (query d env).1 env).2 = progressTrace (query d env).2
    ∧ studyInstanceUIDQueried (query (query d env).1 env).1
        = studyInstanceUIDQueried (query d env).1
    ∧ ∀ (q : DcmDataset) (l : List String),
        (query { d with query := q, StudyInstanceUIDList := l } env).2 = (query d env).2 := by
  refine ⟨query_twice d env, ?_, ?_, ?_, ?_, query_trace_indep d env⟩
  · rw [query_twice]
  · rw [query_twice]
  · rw [query_twice]
  · obtain ⟨q, l, h⟩ := query_state_shape d env
    cases hi : env.initNetwork with
    | false => rw [query_uids_failed _ env hi, query_uids_failed _ env hi]
    | true => rw [query_uids_ok _ env hi, query_uids_ok _ env hi, h, topAnswer_indep]

end ctkDICOMQuery

end CTK
